import Mathlib

/-!
Verification of the Doc.X-Intelligent document-intake backend
(`src/backend/app.py`, `src/backend/rag_classifier.py`) against its
natural-language specification.

The Python source is shallowly embedded: pure helpers become Lean
functions on `String` / `List Nat` (bytes); the Supabase metadata store
becomes an explicit `List` of records threaded through the intake
functions; calls to external collaborators (HTTP classifier, format
handlers, the store lookup) are modelled by explicit outcome values so
that both their success and their failure paths are covered.  32-bit
machine arithmetic (inside the hash functions) is `Nat` with explicit
`% 2^32`.
-/

set_option maxRecDepth 100000

namespace DocX

/-! ## Bytes and hex strings -/

/-- UTF-8 encoding of a single character (as `str.encode('utf-8')` does
per code point). -/
def utf8Bytes (c : Char) : List Nat :=
  let n := c.toNat
  if n < 0x80 then [n]
  else if n < 0x800 then
    [0xC0 ||| (n >>> 6), 0x80 ||| (n &&& 0x3F)]
  else if n < 0x10000 then
    [0xE0 ||| (n >>> 12), 0x80 ||| ((n >>> 6) &&& 0x3F), 0x80 ||| (n &&& 0x3F)]
  else
    [0xF0 ||| (n >>> 18), 0x80 ||| ((n >>> 12) &&& 0x3F),
     0x80 ||| ((n >>> 6) &&& 0x3F), 0x80 ||| (n &&& 0x3F)]

/-- `s.encode('utf-8')` as a list of byte values. -/
def strBytes (s : String) : List Nat :=
  (s.data.map utf8Bytes).flatten

/-- Lower-case hexadecimal digit. -/
def hexDigit (n : Nat) : Char :=
  if n < 10 then Char.ofNat (48 + n) else Char.ofNat (87 + n)

/-- Two lower-case hex digits of one byte, high nibble first
(`bytes.hex()` / `hexdigest()` digit order). -/
def byteHex (b : Nat) : List Char :=
  [hexDigit ((b >>> 4) &&& 0xF), hexDigit (b &&& 0xF)]

/-- Render a byte list as the lower-case hex string `hexdigest()` returns. -/
def bytesToHex (bs : List Nat) : String :=
  ⟨(bs.map byteHex).flatten⟩

/-! ## 32-bit word arithmetic -/

def w32 : Nat := 4294967296

def mask32 : Nat := 4294967295

def add32 (a b : Nat) : Nat := (a + b) % w32

def rotl32 (x n : Nat) : Nat := ((x <<< n) ||| (x >>> (32 - n))) % w32

def rotr32 (x n : Nat) : Nat := ((x >>> n) ||| (x <<< (32 - n))) % w32

def not32 (x : Nat) : Nat := x ^^^ mask32

/-- Split a byte list into 64-byte blocks (structural recursion on a
fuel bound so that the kernel can evaluate it). -/
def chunks64Go : Nat → List Nat → List (List Nat)
  | 0, _ => []
  | _, [] => []
  | fuel + 1, l => l.take 64 :: chunks64Go fuel (l.drop 64)

/-- Split a byte list into 64-byte blocks. -/
def chunks64 (l : List Nat) : List (List Nat) :=
  chunks64Go l.length l

/-- Little-endian 32-bit words of a byte list (MD5 word order). -/
def leWords : List Nat → List Nat
  | b0 :: b1 :: b2 :: b3 :: rest =>
      (b0 + 256 * b1 + 65536 * b2 + 16777216 * b3) :: leWords rest
  | _ => []

/-- Big-endian 32-bit words of a byte list (SHA-256 word order). -/
def beWords : List Nat → List Nat
  | b0 :: b1 :: b2 :: b3 :: rest =>
      (b3 + 256 * b2 + 65536 * b1 + 16777216 * b0) :: beWords rest
  | _ => []

/-- Little-endian byte expansion of a 32-bit word. -/
def wordLeBytes (x : Nat) : List Nat :=
  [x &&& 255, (x >>> 8) &&& 255, (x >>> 16) &&& 255, (x >>> 24) &&& 255]

/-- Big-endian byte expansion of a 32-bit word. -/
def wordBeBytes (x : Nat) : List Nat :=
  [(x >>> 24) &&& 255, (x >>> 16) &&& 255, (x >>> 8) &&& 255, x &&& 255]

/-- Little-endian byte expansion of a 64-bit length (MD5 padding tail). -/
def len64LeBytes (x : Nat) : List Nat :=
  [x &&& 255, (x >>> 8) &&& 255, (x >>> 16) &&& 255, (x >>> 24) &&& 255,
   (x >>> 32) &&& 255, (x >>> 40) &&& 255, (x >>> 48) &&& 255, (x >>> 56) &&& 255]

/-- Big-endian byte expansion of a 64-bit length (SHA-256 padding tail). -/
def len64BeBytes (x : Nat) : List Nat :=
  [(x >>> 56) &&& 255, (x >>> 48) &&& 255, (x >>> 40) &&& 255, (x >>> 32) &&& 255,
   (x >>> 24) &&& 255, (x >>> 16) &&& 255, (x >>> 8) &&& 255, x &&& 255]

/-- Merkle–Damgård padding shared by MD5 and SHA-256: a 0x80 byte, zeros
up to 56 mod 64, then the 8-byte bit length (endianness differs). -/
def padTo56 (msg : List Nat) : List Nat :=
  msg ++ 0x80 :: List.replicate ((119 - msg.length % 64) % 64) 0

/-! ## MD5 (`hashlib.md5`) -/

/-- The 64 MD5 sine-derived round constants. -/
def md5K : List Nat :=
  [3614090360, 3905402710, 606105819, 3250441966, 4118548399, 1200080426,
   2821735955, 4249261313, 1770035416, 2336552879, 4294925233, 2304563134,
   1804603682, 4254626195, 2792965006, 1236535329, 4129170786, 3225465664,
   643717713, 3921069994, 3593408605, 38016083, 3634488961, 3889429448,
   568446438, 3275163606, 4107603335, 1163531501, 2850285829, 4243563512,
   1735328473, 2368359562, 4294588738, 2272392833, 1839030562, 4259657740,
   2763975236, 1272893353, 4139469664, 3200236656, 681279174, 3936430074,
   3572445317, 76029189, 3654602809, 3873151461, 530742520, 3299628645,
   4096336452, 1126891415, 2878612391, 4237533241, 1700485571, 2399980690,
   4293915773, 2240044497, 1873313359, 4264355552, 2734768916, 1309151649,
   4149444226, 3174756917, 718787259, 3951481745]

/-- The 64 MD5 per-round left-rotation amounts. -/
def md5S : List Nat :=
  [7, 12, 17, 22, 7, 12, 17, 22, 7, 12, 17, 22, 7, 12, 17, 22,
   5, 9, 14, 20, 5, 9, 14, 20, 5, 9, 14, 20, 5, 9, 14, 20,
   4, 11, 16, 23, 4, 11, 16, 23, 4, 11, 16, 23, 4, 11, 16, 23,
   6, 10, 15, 21, 6, 10, 15, 21, 6, 10, 15, 21, 6, 10, 15, 21]

/-- One MD5 round on state `(a,b,c,d)` with message words `m`. -/
def md5Round (m : List Nat) (st : Nat × Nat × Nat × Nat) (i : Nat) :
    Nat × Nat × Nat × Nat :=
  let (a, b, c, d) := st
  let fg : Nat × Nat :=
    if i < 16 then ((b &&& c) ||| (not32 b &&& d), i)
    else if i < 32 then ((d &&& b) ||| (not32 d &&& c), (5 * i + 1) % 16)
    else if i < 48 then (b ^^^ c ^^^ d, (3 * i + 5) % 16)
    else (c ^^^ (b ||| not32 d), (7 * i) % 16)
  let sum := (a + fg.1 + md5K.getD i 0 + m.getD fg.2 0) % w32
  (d, add32 b (rotl32 sum (md5S.getD i 0)), b, c)

/-- MD5 compression of one 64-byte block into the running state. -/
def md5Block (st : Nat × Nat × Nat × Nat) (block : List Nat) :
    Nat × Nat × Nat × Nat :=
  let m := leWords block
  let r := (List.range 64).foldl (md5Round m) st
  (add32 st.1 r.1, add32 st.2.1 r.2.1, add32 st.2.2.1 r.2.2.1,
   add32 st.2.2.2 r.2.2.2)

/-- MD5 digest of a byte list, as the lower-case hex string
`hashlib.md5(data).hexdigest()` produces. -/
def md5Hex (data : List Nat) : String :=
  let padded := padTo56 data ++ len64LeBytes ((8 * data.length) % 2 ^ 64)
  let st := (chunks64 padded).foldl md5Block
    (1732584193, 4023233417, 2562383102, 271733878)
  bytesToHex (wordLeBytes st.1 ++ wordLeBytes st.2.1 ++
    wordLeBytes st.2.2.1 ++ wordLeBytes st.2.2.2)

/-! ## SHA-256 (`hashlib.sha256`) -/

/-- The 64 SHA-256 cube-root round constants. -/
def sha256K : List Nat :=
  [1116352408, 1899447441, 3049323471, 3921009573, 961987163, 1508970993,
   2453635748, 2870763221, 3624381080, 310598401, 607225278, 1426881987,
   1925078388, 2162078206, 2614888103, 3248222580, 3835390401, 4022224774,
   264347078, 604807628, 770255983, 1249150122, 1555081692, 1996064986,
   2554220882, 2821834349, 2952996808, 3210313671, 3336571891, 3584528711,
   113926993, 338241895, 666307205, 773529912, 1294757372, 1396182291,
   1695183700, 1986661051, 2177026350, 2456956037, 2730485921, 2820302411,
   3259730800, 3345764771, 3516065817, 3600352804, 4094571909, 275423344,
   430227734, 506948616, 659060556, 883997877, 958139571, 1322822218,
   1537002063, 1747873779, 1955562222, 2024104815, 2227730452, 2361852424,
   2428436474, 2756734187, 3204031479, 3329325298]

/-- Message-schedule extension: the 16 block words grown to 64. -/
def sha256Schedule (ws : List Nat) : List Nat :=
  (List.range 48).foldl
    (fun acc j =>
      let i := j + 16
      let w15 := acc.getD (i - 15) 0
      let w2 := acc.getD (i - 2) 0
      let s0 := rotr32 w15 7 ^^^ rotr32 w15 18 ^^^ (w15 >>> 3)
      let s1 := rotr32 w2 17 ^^^ rotr32 w2 19 ^^^ (w2 >>> 10)
      acc ++ [(acc.getD (i - 16) 0 + s0 + acc.getD (i - 7) 0 + s1) % w32])
    ws

/-- Working state of the SHA-256 compression loop. -/
structure Sha256St where
  a : Nat
  b : Nat
  c : Nat
  d : Nat
  e : Nat
  f : Nat
  g : Nat
  h : Nat
deriving Repr, DecidableEq

/-- One SHA-256 compression round. -/
def sha256Round (w : List Nat) (st : Sha256St) (i : Nat) : Sha256St :=
  let s1 := rotr32 st.e 6 ^^^ rotr32 st.e 11 ^^^ rotr32 st.e 25
  let ch := (st.e &&& st.f) ^^^ (not32 st.e &&& st.g)
  let t1 := (st.h + s1 + ch + sha256K.getD i 0 + w.getD i 0) % w32
  let s0 := rotr32 st.a 2 ^^^ rotr32 st.a 13 ^^^ rotr32 st.a 22
  let maj := (st.a &&& st.b) ^^^ (st.a &&& st.c) ^^^ (st.b &&& st.c)
  let t2 := (s0 + maj) % w32
  { a := (t1 + t2) % w32, b := st.a, c := st.b, d := st.c,
    e := (st.d + t1) % w32, f := st.e, g := st.f, h := st.g }

/-- SHA-256 compression of one 64-byte block into the running state. -/
def sha256Block (st : Sha256St) (block : List Nat) : Sha256St :=
  let w := sha256Schedule (beWords block)
  let r := (List.range 64).foldl (sha256Round w) st
  { a := add32 st.a r.a, b := add32 st.b r.b, c := add32 st.c r.c,
    d := add32 st.d r.d, e := add32 st.e r.e, f := add32 st.f r.f,
    g := add32 st.g r.g, h := add32 st.h r.h }

/-- SHA-256 digest of a byte list, as the lower-case hex string
`hashlib.sha256(data).hexdigest()` produces. -/
def sha256Hex (data : List Nat) : String :=
  let padded := padTo56 data ++ len64BeBytes ((8 * data.length) % 2 ^ 64)
  let st := (chunks64 padded).foldl sha256Block
    { a := 1779033703, b := 3144134277, c := 1013904242, d := 2773480762,
      e := 1359893119, f := 2600822924, g := 528734635, h := 1541459225 }
  bytesToHex (wordBeBytes st.a ++ wordBeBytes st.b ++ wordBeBytes st.c ++
    wordBeBytes st.d ++ wordBeBytes st.e ++ wordBeBytes st.f ++
    wordBeBytes st.g ++ wordBeBytes st.h)

/-! ## Document fingerprints (`app.py`)

`calculate_content_hash` (app.py:40) hashes the content with SHA-256;
the intake webhook `process_document_webhook` computes its duplicate-
detection hash with MD5 (app.py:1021). -/

/-- `calculate_content_hash(content)` — SHA-256 of the UTF-8 content. -/
def calculate_content_hash (content : String) : String :=
  sha256Hex (strBytes content)

/-- The `content_hash` computed inside `process_document_webhook`
(app.py:1021): `hashlib.md5(content_to_analyze.encode('utf-8')).hexdigest()`. -/
def webhookContentHash (content : String) : String :=
  md5Hex (strBytes content)

/-! ## Python string primitives

The keyword tables of the source contain only lower-case ASCII and
Malayalam letters (which have no case), so Python's `str.lower()` is
modelled by its ASCII case mapping. -/

/-- `str.lower()` on one character (ASCII case fold; characters outside
A–Z, in particular the Malayalam block, are uncased). -/
def pyLowerChar (c : Char) : Char :=
  if 65 ≤ c.toNat ∧ c.toNat ≤ 90 then Char.ofNat (c.toNat + 32) else c

/-- `str.lower()`. -/
def pyLower (s : String) : String := ⟨s.data.map pyLowerChar⟩

/-- Python whitespace (the ASCII whitespace characters recognised by
`str.split()` / `str.strip()`). -/
def pySpace (c : Char) : Bool :=
  c.toNat = 32 ∨ c.toNat = 9 ∨ c.toNat = 10 ∨ c.toNat = 13 ∨
  c.toNat = 11 ∨ c.toNat = 12

/-- Worker for `str.split()`: whitespace-delimited tokens, empties
discarded. -/
def pySplitGo : List Char → List Char → List (List Char)
  | [], acc => if acc.isEmpty then [] else [acc.reverse]
  | c :: rest, acc =>
      if pySpace c then
        if acc.isEmpty then pySplitGo rest []
        else acc.reverse :: pySplitGo rest []
      else pySplitGo rest (c :: acc)

/-- `str.split()` with no separator argument: runs of whitespace
separate tokens, no empty tokens. -/
def pySplit (s : String) : List String :=
  (pySplitGo s.data []).map fun l => ⟨l⟩

/-- `str.strip()`. -/
def pyStrip (s : String) : String :=
  ⟨((s.data.dropWhile pySpace).reverse.dropWhile pySpace).reverse⟩

/-- Contiguous-sublist test on characters, used for Python's
`needle in haystack` on strings. -/
def subList (needle : List Char) : List Char → Bool
  | [] => needle.isEmpty
  | c :: rest => needle.isPrefixOf (c :: rest) || subList needle rest

/-- Python `needle in hay` for strings. -/
def pyContains (hay needle : String) : Bool :=
  subList needle.data hay.data

/-- Python `s.find(ch)`: index of the first occurrence, `-1` if none. -/
def pyFindChar (s : String) (ch : Char) : Int :=
  match s.data.findIdx? (· = ch) with
  | some i => (i : Int)
  | none => -1

/-- Python `s.rfind(ch)`: index of the last occurrence, `-1` if none. -/
def pyRfindChar (s : String) (ch : Char) : Int :=
  match s.data.reverse.findIdx? (· = ch) with
  | some i => (s.data.length : Int) - 1 - (i : Int)
  | none => -1

/-- Python slice `s[a:b]` for non-negative bounds. -/
def pySlice (s : String) (a b : Nat) : String :=
  ⟨(s.data.take b).drop a⟩

/-! ## `SmartRouter` (app.py:577) -/

/-- `SmartRouter.department_keywords` (app.py:581), in insertion order. -/
def department_keywords : List (String × List String) :=
  [("engineering",
    ["maintenance", "repair", "technical", "equipment", "machinery",
     "infrastructure", "construction", "mechanical", "electrical", "metro",
     "train", "track", "signal", "platform", "station", "rail",
     "അറ്റകുറ്റപ്പണി", "സാങ്കേതിക", "യന്ത്രസാമഗ്രി", "മെട്രോ", "ട്രെയിൻ"]),
   ("finance",
    ["budget", "payment", "invoice", "cost", "expense", "financial",
     "accounting", "procurement", "purchase", "money", "tender", "contract",
     "ബജറ്റ്", "പണം", "വിലക", "ചെലവ്", "കരാർ"]),
   ("hr",
    ["employee", "staff", "personnel", "leave", "attendance", "training",
     "recruitment", "salary", "benefits", "policy", "transfer",
     "ജീവനക്കാർ", "ശമ്പളം", "അവധി", "പരിശീലനം", "നയം"]),
   ("admin",
    ["administrative", "office", "supplies", "facility", "security",
     "general", "coordination", "management", "policy", "meeting",
     "ഭരണ", "ഓഫീസ്", "സുരക്ഷ", "മീറ്റിംഗ്"]),
   ("safety",
    ["safety", "hazard", "risk", "accident", "emergency", "incident",
     "compliance", "audit", "inspection", "protocol", "fire", "evacuation",
     "സുരക്ഷ", "അപകടം", "അപകടസാധ്യത", "അഗ്നി"]),
   ("operations",
    ["schedule", "timetable", "service", "passenger", "operation", "control",
     "monitoring", "performance", "delay", "disruption",
     "സമയക്രമം", "സർവീസ്", "യാത്രക്കാർ", "പ്രവർത്തനം"])]

/-- `urgent_keywords` of `SmartRouter.determine_priority` (app.py:673). -/
def urgent_keywords : List String :=
  ["urgent", "emergency", "critical", "immediate", "asap", "breakdown",
   "failure", "accident", "incident", "disruption", "fire", "evacuation",
   "തുരന്തം", "അടിയന്തര", "ഗുരുതര", "അപകടം"]

/-- `high_keywords` of `SmartRouter.determine_priority` (app.py:680). -/
def high_keywords : List String :=
  ["important", "priority", "deadline", "schedule", "maintenance",
   "repair", "inspection", "safety", "compliance",
   "പ്രധാന", "സമയം", "സുരക്ഷ"]

/-- `SmartRouter.determine_priority(content)` (app.py:671); the caller
passes the lower-cased content. -/
def determine_priority (content : String) : String :=
  if urgent_keywords.any (fun kw => pyContains content kw) then "urgent"
  else if high_keywords.any (fun kw => pyContains content kw) then "high"
  else "normal"

/-- Per-department entry of `department_scores` in
`SmartRouter.route_document`. -/
structure DeptScore where
  score : Nat
  keywords : List String
  relevance : ℚ
deriving Repr, DecidableEq

/-- The value `route_document` returns (the keys the claims use). -/
structure RoutingResult where
  assigned_department : String
  confidence : ℚ
  priority : String
  department_scores : List (String × Nat)
  reasoning : String
  matched_keywords : List String
deriving Repr, DecidableEq

/-- The inner keyword loop of `route_document` (app.py:635): score and
matched-keyword list for one department's keyword list. -/
def scoreDept (content_lower : String) (keywords : List String) :
    Nat × List String :=
  keywords.foldl
    (fun acc kw =>
      if pyContains content_lower (pyLower kw) then
        (acc.1 + (pySplit kw).length, acc.2 ++ [kw])
      else acc)
    (0, [])

/-- The `department_scores` dict of `route_document` (app.py:628), as an
association list in dict insertion order (departments with score 0 are
not inserted). -/
def departmentScores (content_lower : String) (total_words : Nat) :
    List (String × DeptScore) :=
  department_keywords.foldl
    (fun acc dept =>
      let sk := scoreDept content_lower dept.2
      if sk.1 > 0 then
        acc ++ [(dept.1,
          { score := sk.1, keywords := sk.2,
            relevance := min ((sk.1 : ℚ) / (max total_words 1) * 100) 100 })]
      else acc)
    []

/-- `SmartRouter.route_document(content, metadata)` (app.py:621).
Python's `max(d, key=...)` over the insertion-ordered dict returns the
first key attaining the maximal score, which is exactly
`List.argmax`'s tie behaviour.  Float arithmetic is modelled exactly
over `ℚ`. -/
def route_document (content : String) : RoutingResult :=
  let content_lower := pyLower content
  let total_words := (pySplit content).length
  let scores := departmentScores content_lower total_words
  let priority := determine_priority content_lower
  match scores.argmax (fun p => p.2.score) with
  | some best =>
      { assigned_department := best.1,
        confidence := min best.2.relevance 100,
        priority := priority,
        department_scores := scores.map fun p => (p.1, p.2.score),
        reasoning := "Matched keywords: " ++
          String.intercalate ", " (best.2.keywords.take 3),
        matched_keywords := best.2.keywords }
  | none =>
      { assigned_department := "admin",
        confidence := min 10 100,
        priority := priority,
        department_scores := [],
        reasoning := "No specific keywords found, assigned to admin for review",
        matched_keywords := [] }

/-! ## `DocumentProcessor.detect_language` (app.py:548) -/

/-- Characters of the Malayalam Unicode block, `'ഀ' <= c <= 'ൿ'`. -/
def isMalayalamChar (c : Char) : Bool :=
  0xd00 ≤ c.toNat ∧ c.toNat ≤ 0xd7f

/-- `char.isascii() and char.isalpha()`. -/
def isAsciiAlphaChar (c : Char) : Bool :=
  c.toNat < 128 ∧ ((65 ≤ c.toNat ∧ c.toNat ≤ 90) ∨ (97 ≤ c.toNat ∧ c.toNat ≤ 122))

/-- `DocumentProcessor.detect_language(text)` (app.py:548).  The
`try/except` wrapper of the source cannot fire (the body is total);
float ratio comparisons are modelled exactly over `ℚ`. -/
def detect_language (text : String) : String :=
  if text = "" ∨ (pyStrip text).data.length < 10 then "unknown"
  else
    let malayalam_chars := (text.data.filter isMalayalamChar).length
    let english_chars := (text.data.filter isAsciiAlphaChar).length
    let total_chars := malayalam_chars + english_chars
    if total_chars = 0 then "unknown"
    else
      let malayalam_ratio : ℚ := (malayalam_chars : ℚ) / (total_chars : ℚ)
      let english_ratio : ℚ := (english_chars : ℚ) / (total_chars : ℚ)
      if malayalam_ratio > 3/10 ∧ english_ratio > 3/10 then "mixed_en_ml"
      else if malayalam_ratio > 1/2 then "malayalam"
      else if english_ratio > 7/10 then "english"
      else "mixed"

/-! ## `RAGDepartmentClassifier` (rag_classifier.py)

The external pieces of `classify_with_enhanced_ai` are modelled by
explicit outcome values: `ApiOutcome` is the result of the
`requests.post` call together with the extraction of
`response.json()['choices'][0]['message']['content']` (any exception in
those steps lands in the function's outer `except`), and a
`loads` oracle gives the outcome of `json.loads` on the sliced
candidate JSON string. -/

/-- The parsed-JSON dictionary returned by the AI, with every field the
code reads kept optional (`dict.get`). -/
structure AIJson where
  department : Option String
  confidence_score : Option ℚ
  priority : Option String
  reasoning : Option String
  document_type : Option String
  primary_keywords : List String
deriving Repr, DecidableEq

/-- Outcome of `json.loads(json_str)` inside `classify_with_enhanced_ai`:
a dict, a `json.JSONDecodeError`, or a non-dict JSON value (on which the
subsequent `result.get` raises into the outer handler). -/
inductive LoadsOutcome
  | objOk (j : AIJson)
  | decodeError
  | nonDict
deriving Repr, DecidableEq

/-- Outcome of the OpenRouter HTTP call: `exn` for any exception raised
by `requests.post` / `response.json()` / the `choices` indexing
(timeout, connection error, malformed envelope, ...), or a status code
with the extracted message content. -/
inductive ApiOutcome
  | exn
  | http (status : Nat) (contentText : String)
deriving Repr, DecidableEq

/-- `RAGDepartmentClassifier.normalize_department_name`
(rag_classifier.py:352). -/
def normalize_department_name (department : String) : String :=
  let d := pyLower department
  if d = "engineering" then "Engineering"
  else if d = "finance" then "Finance"
  else if d = "human resources" then "Human Resources"
  else if d = "hr" then "Human Resources"
  else if d = "operations" then "Operations"
  else if d = "safety" then "Safety & Security"
  else if d = "safety & security" then "Safety & Security"
  else if d = "security" then "Safety & Security"
  else if d = "administration" then "Administration"
  else if d = "admin" then "Administration"
  else "Administration"

/-- `RAGDepartmentClassifier.parse_ai_text_response`
(rag_classifier.py:369). -/
def parse_ai_text_response (response_text : String) : AIJson :=
  let lower := pyLower response_text
  let dc : String × ℚ :=
    if pyContains lower "engineering" then ("Engineering", 75)
    else if pyContains lower "finance" then ("Finance", 75)
    else if pyContains lower "human resources" ∨ pyContains lower "hr" then
      ("Human Resources", 75)
    else if pyContains lower "operations" then ("Operations", 75)
    else if pyContains lower "safety" then ("Safety & Security", 75)
    else ("Administration", 50)
  { department := some dc.1, confidence_score := some dc.2,
    priority := some "normal", reasoning := some "Parsed from AI text response",
    document_type := some "unknown", primary_keywords := [] }

/-- `RAGDepartmentClassifier.fallback_classification`
(rag_classifier.py:402). -/
def fallback_classification (content : String) : AIJson :=
  let lower := pyLower content
  if ["maintenance", "repair", "track", "signal", "infrastructure"].any
      (fun w => pyContains lower w) then
    { department := some "Engineering", confidence_score := some 60,
      priority := some "normal",
      reasoning := some "Keyword-based classification (fallback)",
      document_type := some "maintenance_document",
      primary_keywords := ["maintenance", "repair"] }
  else if ["budget", "payment", "cost", "invoice"].any
      (fun w => pyContains lower w) then
    { department := some "Finance", confidence_score := some 60,
      priority := some "normal",
      reasoning := some "Keyword-based classification (fallback)",
      document_type := some "financial_document",
      primary_keywords := ["budget", "payment"] }
  else
    { department := some "Administration", confidence_score := some 30,
      priority := some "normal",
      reasoning := some "Default assignment (fallback)",
      document_type := some "general_document",
      primary_keywords := [] }

/-- `RAGDepartmentClassifier.classify_with_enhanced_ai`
(rag_classifier.py:249).  Returns `none` exactly where the Python
function returns `None`: a 200 response in which the condition
`json_start != -1 and json_end != -1` fails, so the function falls out
of the `if` without any `return`. -/
def classify_with_enhanced_ai (loads : String → LoadsOutcome)
    (api : ApiOutcome) (content : String) : Option AIJson :=
  match api with
  | .exn => some (fallback_classification content)
  | .http status contentText =>
    if status = 200 then
      let json_start := pyFindChar contentText '{'
      let json_end := pyRfindChar contentText '}' + 1
      if json_start ≠ -1 ∧ json_end ≠ -1 then
        let json_str := pySlice contentText json_start.toNat json_end.toNat
        match loads json_str with
        | .objOk j =>
            let dept := normalize_department_name (j.department.getD "Administration")
            some { j with department := some dept }
        | .decodeError => some (parse_ai_text_response contentText)
        | .nonDict => some (fallback_classification content)
      else none
    else some (fallback_classification content)

/-! ## `DocumentProcessor.process_binary_file` (app.py:239) -/

/-- Outcome of one format handler (`extract_pdf_content`, ...): the
extracted text, or an exception caught by the outer handler of
`process_binary_file`. -/
inductive HandlerOutcome
  | ok (text : String)
  | raise (e : String)
deriving Repr, DecidableEq

/-- The format handlers of `DocumentProcessor`, as outcome values for
the one input being processed.  `textDecode` is
`binary_data.decode('utf-8', errors='ignore')`, which is total. -/
structure BinHandlers where
  pdf : HandlerOutcome
  excel : HandlerOutcome
  word : HandlerOutcome
  image : HandlerOutcome
  textDecode : String
deriving Repr, DecidableEq

/-- The result dict of `process_binary_file` (the keys the claims use;
`error` is the `"error"` entry the exception branch puts in the
metadata). -/
structure ProcessResult where
  text : String
  language : String
  word_count : Nat
  success : Bool
  error : Option String
deriving Repr, DecidableEq

/-- Python `str.split(sep)` for a one-character separator: splits at
every occurrence, keeping empty pieces. -/
def splitOnCharGo (sep : Char) : List Char → List Char → List (List Char)
  | [], acc => [acc.reverse]
  | c :: rest, acc =>
      if c = sep then acc.reverse :: splitOnCharGo sep rest []
      else splitOnCharGo sep rest (c :: acc)

/-- `filename.lower().split('.')[-1] if '.' in filename else ''`
(app.py:242). -/
def fileExt (filename : String) : String :=
  if pyContains filename "." then
    ⟨(splitOnCharGo '.' (pyLower filename).data []).getLastD []⟩
  else ""

/-- `DocumentProcessor.process_binary_file(binary_data, filename,
mime_type)` (app.py:239).  The unsupported-format branch's inner
`try` around `decode(..., errors='ignore')` cannot raise, so that
branch always yields the decoded text. -/
def process_binary_file (h : BinHandlers) (filename mime : String) :
    ProcessResult :=
  let ext := fileExt filename
  let mimeL := pyLower mime
  let branch : HandlerOutcome :=
    if ext = "pdf" ∨ pyContains mimeL "pdf" then h.pdf
    else if ext = "xlsx" ∨ ext = "xls" ∨ pyContains mimeL "excel" ∨
        pyContains mimeL "spreadsheet" then h.excel
    else if ext = "docx" ∨ ext = "doc" ∨ pyContains mimeL "word" then h.word
    else if ext = "png" ∨ ext = "jpg" ∨ ext = "jpeg" ∨ ext = "tiff" ∨
        ext = "bmp" ∨ pyContains mimeL "image" then h.image
    else if ext = "txt" ∨ pyContains mimeL "text" then .ok h.textDecode
    else .ok h.textDecode
  match branch with
  | .raise e =>
      { text := "Error processing " ++ filename ++ ": " ++ e,
        language := "unknown", word_count := 0, success := false,
        error := some e }
  | .ok extracted =>
      if pyStrip extracted ≠ "" then
        { text := extracted, language := detect_language extracted,
          word_count := (pySplit extracted).length, success := true,
          error := none }
      else
        { text := "File processed but no text content extracted from " ++ filename,
          language := "unknown", word_count := 0, success := false,
          error := none }

/-! ## The documents table

A stored row of the Supabase `documents` table, with the metadata
entries the intake code reads or writes flattened into fields
(`content_hash`, `message_id`, `update_count`, `processing_status`,
`error`). `created_at` is an abstract numeric timestamp used only for
ordering. -/

structure StoredDoc where
  id : String
  title : String
  content : String
  source : String
  language : String
  assigned_department : String
  priority : String
  confidence : ℚ
  status : String
  created_at : Nat
  updated_at : Option Nat
  content_hash : String
  message_id : String
  update_count : Nat
  processing_status : Option String
  errorMeta : Option String
deriving Repr, DecidableEq

/-- The `documents` table. -/
abbrev DocTable := List StoredDoc

/-- First row with the given id (`.eq('id', x)` + `.data[0]`). -/
def dbFind (db : DocTable) (i : String) : Option StoredDoc :=
  db.find? fun d => d.id = i

/-- `supabase.table('documents').update(patch).eq('id', i)`: apply the
patch to every row whose id is `i`. -/
def dbUpdate (db : DocTable) (i : String) (patch : StoredDoc → StoredDoc) :
    DocTable :=
  db.map fun d => if d.id = i then patch d else d

/-! ## `check_document_exists` (app.py:44) -/

/-- Outcome of the two store lookups inside `check_document_exists`;
`raise` covers an exception anywhere inside its `try`. -/
inductive StoreLookup
  | ok (db : DocTable)
  | raise (e : String)

/-- The dict `check_document_exists` returns. -/
structure ExistsCheck where
  exists_by_name : Bool
  exists_by_content : Bool
  existing_name_docs : List StoredDoc
  existing_content_docs : List StoredDoc
  content_hash : String
  is_duplicate : Bool
deriving Repr, DecidableEq

/-- `check_document_exists(filename, content)` (app.py:44). -/
def check_document_exists (filename content : String) (store : StoreLookup) :
    ExistsCheck :=
  match store with
  | .raise _ =>
      { exists_by_name := false, exists_by_content := false,
        existing_name_docs := [], existing_content_docs := [],
        content_hash := calculate_content_hash content,
        is_duplicate := false }
  | .ok db =>
      let content_hash := calculate_content_hash content
      let existing_by_name := db.filter fun d => d.title = filename
      let existing_by_content := db.filter fun d => d.content_hash = content_hash
      { exists_by_name := existing_by_name.length > 0,
        exists_by_content := existing_by_content.length > 0,
        existing_name_docs := existing_by_name,
        existing_content_docs := existing_by_content,
        content_hash := content_hash,
        is_duplicate := existing_by_content.length > 0 }

/-! ## `process_document_webhook` (app.py:795): routing, dedupe, store

The routing selection (app.py:933–1015) in the single-department case:
with a RAG classifier configured, the stored department, priority and
confidence come from the `analyze_with_rag` result dict; otherwise from
`smart_router.route_document`. -/

/-- The routing selection of `process_document_webhook`
(app.py:988–1014, single-department path; `rag` is the result of
`rag_classifier.analyze_with_rag` when a RAG classifier is configured,
`none` when it is not). -/
def webhookRouting (rag : Option AIJson) (content : String) : RoutingResult :=
  match rag with
  | some r =>
      { assigned_department := r.department.getD "Administration",
        priority := r.priority.getD "normal",
        confidence := r.confidence_score.getD 70,
        department_scores := [],
        reasoning := r.reasoning.getD "RAG-enhanced analysis",
        matched_keywords := r.primary_keywords }
  | none => route_document content

/-- The input fields of one webhook submission that the
dedupe-and-store phase reads. -/
structure WebhookInput where
  content_to_analyze : String
  subject : String
  source : String
  message_id : String
  language : String
deriving Repr, DecidableEq

/-- The duplicate lookup of `process_document_webhook`
(app.py:1024–1037): first by `metadata->>content_hash`, then — only if
that found nothing and `message_id` is non-empty — by
`metadata->>message_id` plus `source`. -/
def findDuplicate (db : DocTable) (content_hash message_id source : String) :
    Option StoredDoc :=
  match (db.filter fun d => d.content_hash = content_hash).head? with
  | some d => some d
  | none =>
      if message_id ≠ "" then
        (db.filter fun d => d.message_id = message_id ∧ d.source = source).head?
      else none

/-- The `update_data` merge of `process_document_webhook`
(app.py:1047–1069) applied to the found duplicate row: classification
fields and `updated_at` are overwritten, the metadata keeps its old
entries except `content_hash` and `update_count` (old count + 1); the
`status` column and the `content` are not touched. -/
def mergeUpdate (routing : RoutingResult) (ts : Nat) (content_hash : String)
    (dup : StoredDoc) : StoredDoc :=
  { dup with
    assigned_department := routing.assigned_department,
    priority := routing.priority,
    confidence := routing.confidence,
    updated_at := some ts,
    content_hash := content_hash,
    update_count := dup.update_count + 1 }

/-- The id built for a fresh document (app.py:1080–1084):
`kmrl_{timestamp}_{message_id[:8] or "unknown"}_{uuid4[:8]}`. -/
def newDocId (tsStr message_id suffix : String) : String :=
  "kmrl_" ++ tsStr ++ "_" ++
    (if message_id ≠ "" then ⟨message_id.data.take 8⟩ else "unknown") ++
    "_" ++ suffix

/-- The `processed_doc` record inserted for a fresh document
(app.py:1083–1115). -/
def newDoc (inp : WebhookInput) (routing : RoutingResult) (ts : Nat)
    (tsStr suffix content_hash : String) : StoredDoc :=
  { id := newDocId tsStr inp.message_id suffix,
    title := if inp.subject ≠ "" then inp.subject else "KMRL Document",
    content := inp.content_to_analyze,
    source := inp.source,
    language := inp.language,
    assigned_department := routing.assigned_department,
    priority := routing.priority,
    confidence := routing.confidence,
    status := "pending",
    created_at := ts,
    updated_at := none,
    content_hash := content_hash,
    message_id := inp.message_id,
    update_count := 0,
    processing_status := none,
    errorMeta := none }

/-- What `process_document_webhook` hands back to the caller (the keys
of `response_data["document"]` the claims use, plus the table state). -/
structure WebhookOutcome where
  db : DocTable
  stored_id : String
  is_update : Bool
deriving Repr, DecidableEq

/-- The dedupe-and-store phase of `process_document_webhook`
(app.py:1017–1164).  `dedupRaises` models an exception inside the
duplicate-lookup `try` (app.py:1039, caught and logged, leaving
`duplicate_doc = None`); the insert is modelled as succeeding (the
duplicate-key retry of app.py:1122–1139 changes only the id).  `ts` is
`datetime.now()`, `suffix` the `uuid4` fragment. -/
def webhookDedupStore (db : DocTable) (inp : WebhookInput)
    (routing : RoutingResult) (dedupRaises : Bool) (ts : Nat)
    (tsStr suffix : String) : WebhookOutcome :=
  let content_hash := webhookContentHash inp.content_to_analyze
  let duplicate_doc :=
    if dedupRaises then none
    else findDuplicate db content_hash inp.message_id inp.source
  match duplicate_doc with
  | some dup =>
      { db := dbUpdate db dup.id (mergeUpdate routing ts content_hash),
        stored_id := dup.id,
        is_update := true }
  | none =>
      let doc := newDoc inp routing ts tsStr suffix content_hash
      { db := db ++ [doc], stored_id := doc.id, is_update := false }

/-- One full single-document run of `process_document_webhook` in the
single-department path: route (app.py:933–1015), then dedupe and store
(app.py:1017–1164). -/
def process_document_webhook (db : DocTable) (inp : WebhookInput)
    (rag : Option AIJson) (dedupRaises : Bool) (ts : Nat)
    (tsStr suffix : String) : WebhookOutcome :=
  webhookDedupStore db inp (webhookRouting rag inp.content_to_analyze)
    dedupRaises ts tsStr suffix

/-- One step of the attachment loop of `process_document_webhook`
(app.py:857–867 and 874–886): the extraction result of one attachment
(handlers, filename, mime type) is appended to the accumulated content
only when `result.get("success") and result.get("text")` holds. -/
def attachAppend (acc : String) (att : BinHandlers × String × String) :
    String :=
  let r := process_binary_file att.1 att.2.1 att.2.2
  if r.success ∧ r.text ≠ "" then
    acc ++ "\n\nFile: " ++ att.2.1 ++ "\n" ++ r.text
  else acc

/-- The content-assembly phase of `process_document_webhook`
(app.py:851–922) for a submission with attachments, a `content` field
and a `subject` field (no `parentMessage`): attachment extractions are
gated by `attachAppend`, the body/subject are prepended when non-blank
(app.py:915–916), and `none` models the path where the stripped total
is empty and the endpoint returns 400 "No content to process" before
any storage (app.py:921–922). -/
def webhookAssembleContent (atts : List (BinHandlers × String × String))
    (content subject : String) : Option String :=
  let extracted_content := atts.foldl attachAppend ""
  let main_content := (if content ≠ "" then content else "") ++
    (if subject ≠ "" then " " ++ subject else "")
  let extracted_content :=
    if pyStrip main_content ≠ "" then main_content ++ extracted_content
    else extracted_content
  let content_to_analyze := pyStrip extracted_content
  if content_to_analyze = "" then none else some content_to_analyze

/-- `process_document_webhook` end to end in the single-department
path: assemble the content (app.py:851–922); when nothing remains the
endpoint returns 400 before any storage and the table is unchanged
(`false`); otherwise route, dedupe and store as in
`process_document_webhook` (`true`). -/
def webhookFullRun (db : DocTable)
    (atts : List (BinHandlers × String × String))
    (content subject source message_id language : String)
    (rag : Option AIJson) (dedupRaises : Bool) (ts : Nat)
    (tsStr suffix : String) : DocTable × Bool :=
  match webhookAssembleContent atts content subject with
  | none => (db, false)
  | some cta =>
      ((process_document_webhook db
        { content_to_analyze := cta, subject := subject, source := source,
          message_id := message_id, language := language }
        rag dedupRaises ts tsStr suffix).db, true)

/-! ## `store_document_webhook` (app.py:2353) -/

/-- The storage step of `store_document_webhook` (app.py:2555–2589): it
builds `doc_data` and inserts it — there is no duplicate lookup on this
channel.  (The row's `processing_status` column and binary payload are
not modelled; `metadata.content_hash` is `calculate_content_hash`,
i.e. SHA-256.) -/
def store_document_webhook (db : DocTable) (document_id filename content
    source assigned_department priority : String) (confidence : ℚ)
    (ts : Nat) : DocTable :=
  db ++ [{ id := document_id,
           title := filename,
           content := content,
           source := source,
           language := "english",
           assigned_department := assigned_department,
           priority := priority,
           confidence := confidence,
           status := "processed",
           created_at := ts,
           updated_at := none,
           content_hash := calculate_content_hash content,
           message_id := "",
           update_count := 0,
           processing_status := some "completed",
           errorMeta := none }]

/-! ## `process_pending_documents` (app.py:2610) -/

/-- Outcome of the classification step for one pending document
(`rag_classifier.analyze_with_rag`, app.py:2656, or anything else the
per-document `try` can raise). -/
inductive ClassifyOutcome
  | ok (j : AIJson)
  | raise (e : String)
deriving Repr, DecidableEq

/-- The batch selection of `process_pending_documents`
(app.py:2614–2619): rows with `status = 'pending'`, ordered by
`created_at` ascending, limited to 10. -/
def selectPending (db : DocTable) : List StoredDoc :=
  (List.insertionSort (fun a b => a.created_at ≤ b.created_at)
    (db.filter fun d => d.status = "pending")).take 10

/-- The "mark as processing" update of the batch loop (app.py:2646). -/
def markProcessing (ts : Nat) (d : StoredDoc) : StoredDoc :=
  { d with status := "processing", processing_status := some "processing",
           updated_at := some ts }

/-- The success update of the batch loop (app.py:2670): persist the
classification fields and mark `processed`. -/
def applyClassified (j : AIJson) (ts : Nat) (d : StoredDoc) : StoredDoc :=
  { d with
    assigned_department := j.department.getD "Administration",
    confidence := j.confidence_score.getD 70,
    priority := j.priority.getD "normal",
    status := "processed",
    processing_status := some "completed",
    updated_at := some ts }

/-- The failure update of the batch loop (app.py:2708): mark `failed`
and record the error message in the metadata. -/
def markFailed (e : String) (ts : Nat) (d : StoredDoc) : StoredDoc :=
  { d with status := "failed", processing_status := some "failed",
           errorMeta := some e, updated_at := some ts }

/-- The per-document body of the batch loop (app.py:2633–2716), RAG
branch: skip documents without content; mark `processing`; classify; on
success persist the classification and mark `processed`; on an
exception mark `failed` and record the error in the metadata, then
continue with the next document. -/
def processOne (classify : StoredDoc → ClassifyOutcome) (ts : Nat)
    (acc : DocTable × Nat × Nat) (doc : StoredDoc) : DocTable × Nat × Nat :=
  let (db, processed_count, failed_count) := acc
  if doc.content = "" then acc
  else
    let db1 := dbUpdate db doc.id (markProcessing ts)
    match classify doc with
    | .ok j =>
        (dbUpdate db1 doc.id (applyClassified j ts),
         processed_count + 1, failed_count)
    | .raise e =>
        (dbUpdate db1 doc.id (markFailed e ts),
         processed_count, failed_count + 1)

/-- Whether a classification outcome is a success. -/
def ClassifyOutcome.isOk : ClassifyOutcome → Bool
  | .ok _ => true
  | .raise _ => false

/-- What `process_pending_documents` reports. -/
structure DrainOutcome where
  db : DocTable
  processed_count : Nat
  failed_count : Nat
deriving Repr, DecidableEq

/-- `process_pending_documents` (app.py:2610), RAG branch: select up to
10 pending rows oldest first and run the batch loop. -/
def process_pending_documents (classify : StoredDoc → ClassifyOutcome)
    (ts : Nat) (db : DocTable) : DrainOutcome :=
  let r := (selectPending db).foldl (processOne classify ts) (db, 0, 0)
  { db := r.1, processed_count := r.2.1, failed_count := r.2.2 }

/-! ## Witness data -/

/-- Modelled from the spec: the claim C9 decision rule — count
Malayalam-block characters versus ASCII-alphabetic characters and
classify `mixed_en_ml` when both ratios exceed 30%, `malayalam` when
the Malayalam ratio exceeds 50%, `english` when the English ratio
exceeds 70%, `mixed` or `unknown` otherwise — with the ratio
comparisons cross-multiplied, and with the source's guard (empty text,
fewer than 10 characters after strip, or no countable characters ⇒
`unknown`) that the counterexample forces into the claim. -/
def detectLanguageSpec (text : String) : String :=
  let m := (text.data.filter isMalayalamChar).length
  let e := (text.data.filter isAsciiAlphaChar).length
  let t := m + e
  if text = "" ∨ (pyStrip text).data.length < 10 ∨ t = 0 then "unknown"
  else if 10 * m > 3 * t ∧ 10 * e > 3 * t then "mixed_en_ml"
  else if 2 * m > t then "malayalam"
  else if 10 * e > 7 * t then "english"
  else "mixed"

/-- Sample row used by the C2 witness: a stored document whose
fingerprint equals the webhook fingerprint of "x". -/
def c2SampleDoc : StoredDoc :=
  { id := "doc1", title := "t", content := "x", source := "email",
    language := "english", assigned_department := "admin",
    priority := "normal", confidence := 50, status := "pending",
    created_at := 0, updated_at := none,
    content_hash := webhookContentHash "x", message_id := "",
    update_count := 0, processing_status := none, errorMeta := none }

/-- Five pending sample rows for the C5 witness. -/
def c5Doc (i : Nat) (idStr : String) : StoredDoc :=
  { id := idStr, title := "t", content := "budget", source := "email",
    language := "english", assigned_department := "admin",
    priority := "normal", confidence := 50, status := "pending",
    created_at := i, updated_at := none, content_hash := "h",
    message_id := "", update_count := 0, processing_status := none,
    errorMeta := none }

/-- The C5 witness table. -/
def c5Db : DocTable :=
  [c5Doc 1 "d1", c5Doc 2 "d2", c5Doc 3 "d3", c5Doc 4 "d4", c5Doc 5 "d5"]

/-- A classifier that raises exactly on document "d2". -/
def c5Classify (d : StoredDoc) : ClassifyOutcome :=
  if d.id = "d2" then .raise "boom"
  else .ok { department := some "Engineering", confidence_score := some 90,
             priority := some "high", reasoning := some "r",
             document_type := none, primary_keywords := [] }

/-- A stored `failed` document for the C4 counterexample, with the
fingerprint of "budget report". -/
def c4FailedDoc : StoredDoc :=
  { id := "doc1", title := "t", content := "budget report",
    source := "email", language := "english",
    assigned_department := "Finance", priority := "normal",
    confidence := 60, status := "failed", created_at := 0,
    updated_at := none, content_hash := webhookContentHash "budget report",
    message_id := "m1", update_count := 0,
    processing_status := some "failed", errorMeta := some "old error" }

/-- The duplicate re-submission of the C4 counterexample. -/
def c4Input : WebhookInput :=
  { content_to_analyze := "budget report", subject := "s",
    source := "email", message_id := "m2", language := "english" }

/-- The AI result used in the C4 counterexample run. -/
def c4Rag : AIJson :=
  { department := some "Finance", confidence_score := some 80,
    priority := some "normal", reasoning := some "ai",
    document_type := none, primary_keywords := [] }

/-- The routing result used by the C4 witness merge. -/
def c4WitnessRouting : RoutingResult :=
  { assigned_department := "Finance", confidence := 80, priority := "normal",
    department_scores := [], reasoning := "ai", matched_keywords := [] }

/-- The submission used by the C1 witness. -/
def c1Input : WebhookInput :=
  { content_to_analyze := "urgent repair", subject := "s",
    source := "email", message_id := "", language := "english" }

/-- The routing result used by the C1 witness. -/
def c1Routing : RoutingResult :=
  { assigned_department := "engineering", confidence := 80,
    priority := "urgent", department_scores := [], reasoning := "kw",
    matched_keywords := [] }

/-! ## Helper lemmas -/

/-- RFC 1321 test vector: MD5 of the empty message. -/
theorem md5Hex_nil : md5Hex [] = "d41d8cd98f00b204e9800998ecf8427e" := by
  decide

/-- RFC 1321 test vector: MD5 of "abc". -/
theorem md5Hex_abc : md5Hex (strBytes "abc") =
    "900150983cd24fb0d6963f7d28e17f72" := by decide

/-- FIPS 180 test vector: SHA-256 of the empty message. -/
theorem sha256Hex_nil : sha256Hex [] =
    "e3b0c44298fc1c149afbf4c8996fb92427ae41e4649b934ca495991b7852b855" := by
  decide

/-- FIPS 180 test vector: SHA-256 of "abc". -/
theorem sha256Hex_abc : sha256Hex (strBytes "abc") =
    "ba7816bf8f01cfea414140de5dae2223b00361a396177a9cb410ff61f20015ad" := by
  decide


theorem dbFind_cons (x : StoredDoc) (xs : DocTable) (j : String) :
    dbFind (x :: xs) j = if x.id = j then some x else dbFind xs j := by
  by_cases h : x.id = j <;> simp [dbFind, List.find?_cons, h]

theorem dbUpdate_cons (x : StoredDoc) (xs : DocTable) (i : String)
    (patch : StoredDoc → StoredDoc) :
    dbUpdate (x :: xs) i patch =
      (if x.id = i then patch x else x) :: dbUpdate xs i patch := by
  simp [dbUpdate]

theorem dbFind_dbUpdate_self {db : DocTable} {i : String}
    {patch : StoredDoc → StoredDoc} (hid : ∀ d, (patch d).id = d.id) :
    dbFind (dbUpdate db i patch) i = (dbFind db i).map patch := by
  induction db with
  | nil => rfl
  | cons d rest ih =>
      rw [dbUpdate_cons]
      by_cases h : d.id = i
      · rw [if_pos h, dbFind_cons, if_pos (by rw [hid d, h]), dbFind_cons,
          if_pos h, Option.map_some']
      · rw [if_neg h, dbFind_cons, if_neg h, ih, dbFind_cons, if_neg h]

theorem dbFind_dbUpdate_ne {db : DocTable} {i j : String}
    {patch : StoredDoc → StoredDoc} (hid : ∀ d, (patch d).id = d.id)
    (hne : j ≠ i) :
    dbFind (dbUpdate db i patch) j = dbFind db j := by
  induction db with
  | nil => rfl
  | cons d rest ih =>
      rw [dbUpdate_cons]
      by_cases h : d.id = i
      · rw [if_pos h, dbFind_cons, if_neg (by rw [hid d, h]; exact fun he => hne he.symm),
          ih, dbFind_cons, if_neg (by rw [h]; exact fun he => hne he.symm)]
      · rw [if_neg h, dbFind_cons, dbFind_cons, ih]

theorem dbFind_of_nodup {db : DocTable} {d : StoredDoc}
    (hnd : (db.map (·.id)).Nodup) (hmem : d ∈ db) :
    dbFind db d.id = some d := by
  induction db with
  | nil => cases hmem
  | cons x rest ih =>
      rcases List.mem_cons.mp hmem with rfl | hmem'
      · simp [dbFind, List.find?_cons]
      · have hx : x.id ≠ d.id := by
          intro he
          have : x.id ∈ rest.map (·.id) := by
            rw [he]; exact List.mem_map_of_mem _ hmem'
          exact (List.nodup_cons.mp hnd).1 this
        have := ih (List.nodup_cons.mp hnd).2 hmem'
        simpa [dbFind, List.find?_cons, hx] using this

/-- Membership in a fold that only appends. -/
theorem mem_foldl_append {α β : Type*} (g : β → List α) (l : List β)
    (init : List α) (p : α) :
    p ∈ l.foldl (fun acc x => acc ++ g x) init ↔
      p ∈ init ∨ ∃ x ∈ l, p ∈ g x := by
  induction l generalizing init with
  | nil => simp
  | cons b rest ih =>
      rw [List.foldl_cons, ih]
      simp [List.mem_append, or_assoc]

/-- `scoreDept` computes the matched-keyword list and the sum of their
word counts. -/
theorem scoreDept_eq (cl : String) (kws : List String) :
    scoreDept cl kws =
      (((kws.filter fun kw => pyContains cl (pyLower kw)).map
          fun kw => (pySplit kw).length).sum,
       kws.filter fun kw => pyContains cl (pyLower kw)) := by
  suffices h : ∀ (acc : Nat × List String),
      kws.foldl
        (fun acc kw =>
          if pyContains cl (pyLower kw) then
            (acc.1 + (pySplit kw).length, acc.2 ++ [kw])
          else acc) acc =
      (acc.1 + ((kws.filter fun kw => pyContains cl (pyLower kw)).map
          fun kw => (pySplit kw).length).sum,
       acc.2 ++ kws.filter fun kw => pyContains cl (pyLower kw)) by
    simpa [scoreDept] using h (0, [])
  induction kws with
  | nil => intro acc; simp
  | cons kw rest ih =>
      intro acc
      by_cases hkw : pyContains cl (pyLower kw)
      · simp [List.filter_cons, hkw, ih, add_assoc]
      · simp [List.filter_cons, hkw, ih]

/-- `departmentScores` rewritten as an append-only fold. -/
theorem departmentScores_eq_foldl_append (cl : String) (tw : Nat) :
    departmentScores cl tw =
      department_keywords.foldl
        (fun acc dept =>
          acc ++
            (if (scoreDept cl dept.2).1 > 0 then
              [(dept.1,
                { score := (scoreDept cl dept.2).1,
                  keywords := (scoreDept cl dept.2).2,
                  relevance :=
                    min (((scoreDept cl dept.2).1 : ℚ) / (max tw 1) * 100)
                      100 })]
            else [])) [] := by
  unfold departmentScores
  congr 1
  funext acc dept
  by_cases h : (scoreDept cl dept.2).1 > 0 <;> simp [h]

/-- Characterisation of the entries of `department_scores`. -/
theorem mem_departmentScores {cl : String} {tw : Nat}
    {p : String × DeptScore} (hmem : p ∈ departmentScores cl tw) :
    ∃ kws, (p.1, kws) ∈ department_keywords ∧
      p.2.keywords = kws.filter (fun kw => pyContains cl (pyLower kw)) ∧
      p.2.score = ((p.2.keywords.map fun kw => (pySplit kw).length).sum) ∧
      p.2.score > 0 ∧
      p.2.relevance = min ((p.2.score : ℚ) / (max tw 1) * 100) 100 := by
  rw [departmentScores_eq_foldl_append] at hmem
  rcases (mem_foldl_append _ _ _ _).mp hmem with h | ⟨dept, hdept, hp⟩
  · cases h
  · by_cases hpos : (scoreDept cl dept.2).1 > 0
    · simp only [hpos, if_true, List.mem_singleton] at hp
      subst hp
      refine ⟨dept.2, by simpa using hdept, ?_, ?_, hpos, rfl⟩
      · simpa using congrArg Prod.snd (scoreDept_eq cl dept.2)
      · have h1 := congrArg Prod.fst (scoreDept_eq cl dept.2)
        have h2 := congrArg Prod.snd (scoreDept_eq cl dept.2)
        simp only at h1 h2
        simp [h1, h2]
    · simp [hpos] at hp

/-- If no keyword of the table matches, `department_scores` is empty. -/
theorem departmentScores_eq_nil {cl : String} {tw : Nat}
    (h : ∀ dk ∈ department_keywords, ∀ kw ∈ dk.2,
      ¬pyContains cl (pyLower kw)) :
    departmentScores cl tw = [] := by
  rw [List.eq_nil_iff_forall_not_mem]
  intro p hp
  obtain ⟨kws, hkws, hkeys, hscore, hpos, -⟩ := mem_departmentScores hp
  have : kws.filter (fun kw => pyContains cl (pyLower kw)) = [] := by
    rw [List.filter_eq_nil_iff]
    intro kw hkw
    simpa using h (p.1, kws) hkws kw hkw
  rw [hkeys, this] at hscore
  simp [hscore] at hpos

/-- A substring's characters are characters of the haystack. -/
theorem subList_subset {needle hay : List Char}
    (h : subList needle hay = true) : ∀ c ∈ needle, c ∈ hay := by
  induction hay with
  | nil =>
      intro c hc
      cases needle with
      | nil => cases hc
      | cons a t => simp [subList] at h
  | cons x rest ih =>
      intro c hc
      rw [subList, Bool.or_eq_true] at h
      rcases h with hp | hs
      · exact (List.isPrefixOf_iff_prefix.mp hp).subset hc
      · exact List.mem_cons_of_mem _ (ih hs c hc)

/-- `str.lower()` fixes whitespace characters. -/
theorem pyLowerChar_of_space {c : Char} (h : pySpace c = true) :
    pyLowerChar c = c := by
  unfold pyLowerChar
  rw [if_neg]
  unfold pySpace at h
  simp only [decide_eq_true_eq, Bool.decide_or, Bool.or_eq_true] at h
  omega

/-- If `pySplitGo` produces nothing, the input was all whitespace. -/
theorem pySplitGo_eq_nil {l : List Char} :
    ∀ {acc}, pySplitGo l acc = [] → acc.isEmpty ∧ ∀ c ∈ l, pySpace c := by
  induction l with
  | nil =>
      intro acc h
      unfold pySplitGo at h
      by_cases ha : acc.isEmpty
      · simp [ha]
      · simp [ha] at h
  | cons c rest ih =>
      intro acc h
      unfold pySplitGo at h
      by_cases hc : pySpace c
      · rw [if_pos hc] at h
        by_cases ha : acc.isEmpty
        · rw [if_pos ha] at h
          exact ⟨ha, by
            intro x hx
            rcases List.mem_cons.mp hx with rfl | hx'
            · exact hc
            · exact (ih h).2 x hx'⟩
        · rw [if_neg ha] at h
          cases h
      · rw [if_neg hc] at h
        have := (ih h).1
        simp at this
  -- unreachable clause above closes all goals

/-- A string containing a non-whitespace character splits into at least
one word. -/
theorem pySplit_ne_nil {s : String} (h : ∃ c ∈ s.data, ¬pySpace c) :
    pySplit s ≠ [] := by
  intro hnil
  obtain ⟨c, hc, hcs⟩ := h
  have hgo : pySplitGo s.data [] = [] := by
    have := congrArg List.length hnil
    simp [pySplit] at this
    simp [this]
  exact hcs ((pySplitGo_eq_nil hgo).2 c hc)

/-- Every keyword of the routing table is already lower-case and
contains a non-whitespace character. -/
theorem department_keywords_wellformed :
    ∀ dk ∈ department_keywords, ∀ kw ∈ dk.2,
      pyLower kw = kw ∧ kw.data.any (fun c => !pySpace c) = true := by
  decide

/-- If any routing keyword matches, the content has at least one word. -/
theorem total_words_pos {content : String}
    (h : ∃ dk ∈ department_keywords, ∃ kw ∈ dk.2,
      pyContains (pyLower content) (pyLower kw) = true) :
    1 ≤ (pySplit content).length := by
  obtain ⟨dk, hdk, kw, hkw, hmatch⟩ := h
  obtain ⟨hlower, hns⟩ := department_keywords_wellformed dk hdk kw hkw
  rw [hlower] at hmatch
  obtain ⟨c, hc, hcs⟩ := List.any_eq_true.mp hns
  have hcs' : ¬pySpace c := by simpa using hcs
  have hmem : c ∈ (pyLower content).data := subList_subset hmatch c hc
  have : ∃ c0 ∈ content.data, ¬pySpace c0 := by
    have hdata : (pyLower content).data = content.data.map pyLowerChar := rfl
    rw [hdata] at hmem
    obtain ⟨c0, hc0, hc0e⟩ := List.mem_map.mp hmem
    refine ⟨c0, hc0, fun hsp => ?_⟩
    rw [pyLowerChar_of_space hsp] at hc0e
    exact hcs' (hc0e ▸ hsp)
  have hne := pySplit_ne_nil this
  cases hlen : (pySplit content).length with
  | zero => exact absurd (List.length_eq_zero.mp hlen) hne
  | succ n => omega

/-- A nonempty left part makes a string append nonempty. -/
theorem append_ne_empty_left {s t : String} (h : s.data ≠ []) :
    s ++ t ≠ "" := by
  intro he
  apply h
  have hdata : (s ++ t).data = [] := by rw [he]
  rw [String.data_append] at hdata
  exact (List.append_eq_nil.mp hdata).1

/-- A string whose `strip` is nonempty is nonempty. -/
theorem ne_empty_of_pyStrip_ne {s : String} (h : pyStrip s ≠ "") :
    s ≠ "" := by
  intro he
  exact h (by rw [he]; rfl)

/-! ## Claim theorems -/

/-- **C8** — In the local keyword-scoring tier (`SmartRouter.route_document`):
each candidate department's score is the sum over matched keywords of
the keyword's word count; the department with the highest aggregate
score wins, ties broken by keyword-table iteration order (first maximal
entry, stated via `indexOf`); the returned confidence equals
`min(100, score / totalWordCount × 100)`; when no keyword matches, the
fallback department `admin` is assigned with confidence 10 and the
no-keywords reasoning string; a document that does match gets a
reasoning listing the matched keywords. -/
theorem c8_local_keyword_scoring (content : String) :
    (∀ p ∈ departmentScores (pyLower content) (pySplit content).length,
      ∃ kws, (p.1, kws) ∈ department_keywords ∧
        p.2.keywords = kws.filter (fun kw => pyContains (pyLower content) (pyLower kw)) ∧
        p.2.score = (p.2.keywords.map fun kw => (pySplit kw).length).sum) ∧
    ((∀ dk ∈ department_keywords, ∀ kw ∈ dk.2,
        ¬pyContains (pyLower content) (pyLower kw)) →
      (route_document content).assigned_department = "admin" ∧
      (route_document content).confidence = 10 ∧
      (route_document content).reasoning =
        "No specific keywords found, assigned to admin for review") ∧
    (∀ best, (departmentScores (pyLower content) (pySplit content).length).argmax
        (fun p => p.2.score) = some best →
      (route_document content).assigned_department = best.1 ∧
      best ∈ departmentScores (pyLower content) (pySplit content).length ∧
      (∀ p ∈ departmentScores (pyLower content) (pySplit content).length,
        p.2.score ≤ best.2.score) ∧
      (∀ p ∈ departmentScores (pyLower content) (pySplit content).length,
        best.2.score ≤ p.2.score →
          @List.indexOf (String × DeptScore) instBEqOfDecidableEq best
            (departmentScores (pyLower content) (pySplit content).length) ≤
          @List.indexOf (String × DeptScore) instBEqOfDecidableEq p
            (departmentScores (pyLower content) (pySplit content).length)) ∧
      1 ≤ (pySplit content).length ∧
      (route_document content).confidence =
        min 100 ((best.2.score : ℚ) / ((pySplit content).length : ℚ) * 100) ∧
      (route_document content).reasoning = "Matched keywords: " ++
        String.intercalate ", " (best.2.keywords.take 3) ∧
      (route_document content).matched_keywords = best.2.keywords) := by
  refine ⟨?_, ?_, ?_⟩
  · intro p hp
    obtain ⟨kws, h1, h2, h3, -, -⟩ := mem_departmentScores hp
    exact ⟨kws, h1, h2, h3⟩
  · intro h
    have hnil : departmentScores (pyLower content) (pySplit content).length = [] :=
      departmentScores_eq_nil (by simpa using h)
    refine ⟨?_, ?_, ?_⟩
    · simp [route_document, hnil]
    · simp only [route_document, hnil, List.argmax_nil]
      norm_num
    · simp [route_document, hnil]
  · intro best harg
    obtain ⟨hmem, hle, htie⟩ := List.argmax_eq_some_iff.mp harg
    obtain ⟨kws, hkws, hkeys, hscore, hpos, hrel⟩ := mem_departmentScores hmem
    have hkne : best.2.keywords ≠ [] := by
      intro he
      rw [hkeys] at he
      rw [hkeys, he] at hscore
      simp [hscore] at hpos
    obtain ⟨kw, hkwmem⟩ := List.exists_mem_of_ne_nil _ (hkeys ▸ hkne)
    have hkw' := List.mem_filter.mp hkwmem
    have htw : 1 ≤ (pySplit content).length :=
      total_words_pos ⟨(best.1, kws), hkws, kw, hkw'.1, hkw'.2⟩
    have hmax : max (pySplit content).length 1 = (pySplit content).length :=
      Nat.max_eq_left htw
    have hfields :
        (route_document content).assigned_department = best.1 ∧
        (route_document content).confidence = min best.2.relevance 100 ∧
        (route_document content).reasoning = "Matched keywords: " ++
          String.intercalate ", " (best.2.keywords.take 3) ∧
        (route_document content).matched_keywords = best.2.keywords := by
      refine ⟨?_, ?_, ?_, ?_⟩ <;> simp [route_document, harg]
    refine ⟨hfields.1, hmem, fun p hp => hle p hp,
      fun p hp hge => htie p hp hge, htw, ?_, hfields.2.2.1, hfields.2.2.2⟩
    rw [hfields.2.1, hrel, hmax, min_assoc, min_self, min_comm]

/-- Witness for C8: on keyword-free content the fallback branch fires
with department `admin` and the fixed reasoning string. -/
theorem c8_local_keyword_scoring_witness :
    (route_document "zzz qqq").assigned_department = "admin" ∧
    (route_document "zzz qqq").reasoning =
      "No specific keywords found, assigned to admin for review" := by
  obtain ⟨-, h2, -⟩ := c8_local_keyword_scoring "zzz qqq"
  have h := h2 (by decide)
  exact ⟨h.1, h.2.2⟩

/-- Cross-multiplied form of a rational ratio comparison. -/
theorem nat_ratio_gt {a t p q : ℕ} (ht : 0 < t) (hq : 0 < q) :
    ((p : ℚ) / q < (a : ℚ) / t) ↔ p * t < q * a := by
  rw [div_lt_div_iff₀ (by exact_mod_cast hq) (by exact_mod_cast ht),
    mul_comm (a : ℚ) (q : ℚ)]
  exact_mod_cast Iff.rfl

/-- A string beginning with a nonempty literal part is nonempty. -/
theorem prefix_append_ne_empty {a : String} (b c : String)
    (ha : a.data ≠ []) : a ++ b ++ c ≠ "" := by
  intro he
  have hdata : (a ++ b ++ c).data = [] := by rw [he]
  rw [String.data_append, String.data_append] at hdata
  rcases List.append_eq_nil.mp hdata with ⟨h1, -⟩
  rcases List.append_eq_nil.mp h1 with ⟨h2, -⟩
  exact ha h2

/-- **C9 counterexample** — `"abcdefgh"` is entirely ASCII-alphabetic,
so its English ratio is 100% > 70% and the claim's decision rule
assigns `english`; the code's minimum-length guard (fewer than 10
characters after strip), which the claim does not mention, returns
`unknown` instead. -/
theorem c9_language_detection_counterexample :
    detect_language "abcdefgh" = "unknown" ∧
    ("abcdefgh".data.filter isMalayalamChar).length = 0 ∧
    ("abcdefgh".data.filter isAsciiAlphaChar).length = 8 ∧
    ((8 : ℚ) / (0 + 8) > 7/10) ∧
    detect_language "abcdefgh" ≠ "english" := by
  refine ⟨by decide, by decide, by decide, by norm_num, by decide⟩

/-- **C9 (amended)** — Language detection is a deterministic pure
function of the text: texts that are empty, shorter than 10 characters
after strip, or without Malayalam/ASCII-alphabetic characters are
`unknown`; otherwise the ratio thresholds of the claim apply in the
claim's order. -/
theorem c9_language_detection_amended (text : String) :
    detect_language text = detectLanguageSpec text := by
  unfold detect_language detectLanguageSpec
  by_cases h0 : text = "" ∨ (pyStrip text).data.length < 10
  · rw [if_pos h0, if_pos (by tauto)]
  · rw [if_neg h0]
    set m := (text.data.filter isMalayalamChar).length with hm
    set e := (text.data.filter isAsciiAlphaChar).length with he
    by_cases ht : m + e = 0
    · rw [if_pos ht, if_pos (by tauto)]
    · rw [if_neg (by tauto : ¬(text = "" ∨ (pyStrip text).data.length < 10 ∨ m + e = 0))]
      have htpos : 0 < m + e := Nat.pos_of_ne_zero ht
      have hcast : (0 : ℚ) < ((m + e : ℕ) : ℚ) := by exact_mod_cast htpos
      have h310m : ((3 : ℚ)/10 < (m : ℚ) / ((m + e : ℕ) : ℚ)) ↔ 3 * (m + e) < 10 * m := by
        have := nat_ratio_gt (a := m) (t := m + e) (p := 3) (q := 10) htpos (by norm_num)
        push_cast at this ⊢
        exact this
      have h310e : ((3 : ℚ)/10 < (e : ℚ) / ((m + e : ℕ) : ℚ)) ↔ 3 * (m + e) < 10 * e := by
        have := nat_ratio_gt (a := e) (t := m + e) (p := 3) (q := 10) htpos (by norm_num)
        push_cast at this ⊢
        exact this
      have h12m : ((1 : ℚ)/2 < (m : ℚ) / ((m + e : ℕ) : ℚ)) ↔ m + e < 2 * m := by
        have := nat_ratio_gt (a := m) (t := m + e) (p := 1) (q := 2) htpos (by norm_num)
        push_cast at this ⊢
        simpa using this
      have h710e : ((7 : ℚ)/10 < (e : ℚ) / ((m + e : ℕ) : ℚ)) ↔ 7 * (m + e) < 10 * e := by
        have := nat_ratio_gt (a := e) (t := m + e) (p := 7) (q := 10) htpos (by norm_num)
        push_cast at this ⊢
        exact this
      rw [if_neg ht]
      simp only [gt_iff_lt]
      by_cases c1 : 3 * (m + e) < 10 * m ∧ 3 * (m + e) < 10 * e
      · rw [if_pos ⟨h310m.mpr c1.1, h310e.mpr c1.2⟩, if_pos c1]
      · rw [if_neg (by rw [h310m, h310e]; exact c1), if_neg c1]
        by_cases c2 : m + e < 2 * m
        · rw [if_pos (h12m.mpr c2), if_pos c2]
        · rw [if_neg (by rw [h12m]; exact c2), if_neg c2]
          by_cases c3 : 7 * (m + e) < 10 * e
          · rw [if_pos (h710e.mpr c3), if_pos c3]
          · rw [if_neg (by rw [h710e]; exact c3), if_neg c3]

/-- **C3 (code bug)** — when the OpenRouter call returns HTTP 200 with
a message content containing no `'{'` (e.g. a refusal sentence), the
condition `json_start != -1 and json_end != -1` fails and
`classify_with_enhanced_ai` falls out of its `if` without a `return`,
yielding Python `None` instead of the promised valid
department/priority/confidence result (and `analyze_with_rag` then
raises on subscripting it). -/
theorem c3_resolver_none_on_braceless_200 :
    classify_with_enhanced_ai (fun _ => .decodeError)
      (.http 200 "Unable to classify this document.") "urgent track repair"
      = none := by
  decide

/-- The return contract of `process_binary_file`: it never raises, the
`text` of its result is non-empty, and on a handler exception or an
empty/whitespace-only extraction the text is the corresponding
descriptive placeholder, with the failure recorded (`error` entry /
`success = False`). -/
theorem process_binary_file_contract (h : BinHandlers)
    (filename mime : String) :
    (process_binary_file h filename mime).text ≠ "" ∧
    ((process_binary_file h filename mime).success = false →
      (∃ e, (process_binary_file h filename mime).error = some e ∧
        (process_binary_file h filename mime).text =
          "Error processing " ++ filename ++ ": " ++ e) ∨
      ((process_binary_file h filename mime).error = none ∧
        (process_binary_file h filename mime).text =
          "File processed but no text content extracted from " ++ filename)) := by
  unfold process_binary_file
  dsimp only
  split
  case h_1 e heq =>
    constructor
    · show "Error processing " ++ filename ++ ": " ++ e ≠ ""
      refine prefix_append_ne_empty ": " e ?_
      rw [String.data_append]
      intro hnil
      exact absurd (List.append_eq_nil.mp hnil).1 (by decide)
    · intro
      exact Or.inl ⟨e, rfl, rfl⟩
  case h_2 extracted heq =>
    split
    case isTrue hs =>
      refine ⟨ne_empty_of_pyStrip_ne hs, ?_⟩
      intro hfalse
      simp at hfalse
    case isFalse hs =>
      refine ⟨?_, fun _ => Or.inr ⟨rfl, rfl⟩⟩
      show "File processed but no text content extracted from " ++ filename ≠ ""
      intro he
      have hdata : ("File processed but no text content extracted from " ++
          filename).data = [] := by rw [he]
      rw [String.data_append] at hdata
      exact absurd (List.append_eq_nil.mp hdata).1 (by decide)

/-- The attachment loop contributes nothing when every extraction
result has `success = False` (each is dropped by the gate of
app.py:866/885). -/
theorem foldl_attachAppend_of_failed :
    ∀ (atts : List (BinHandlers × String × String)) (acc : String),
    (∀ a ∈ atts, (process_binary_file a.1 a.2.1 a.2.2).success = false) →
    atts.foldl attachAppend acc = acc := by
  intro atts
  induction atts with
  | nil => intro acc _; rfl
  | cons a rest ih =>
      intro acc hall
      rw [List.foldl_cons]
      have hneg : ¬((process_binary_file a.1 a.2.1 a.2.2).success = true ∧
          (process_binary_file a.1 a.2.1 a.2.2).text ≠ "") := by
        rintro ⟨h1, -⟩
        rw [hall a (List.mem_cons_self _ _)] at h1
        cases h1
      have hstep : attachAppend acc a = acc := by
        unfold attachAppend
        dsimp only
        rw [if_neg hneg]
      rw [hstep]
      exact ih acc fun x hx => hall x (List.mem_cons_of_mem _ hx)

/-- **C7 counterexample** — an empty `.txt` attachment with no email
body or subject: extraction degrades to the non-empty placeholder with
`success = False` as promised, but `process_document_webhook` drops the
`success = False` result at its gate (app.py:866/885) and, with nothing
else to analyze, returns 400 and stores no document (app.py:921–922) —
refuting "downstream classification always has something to score and
the document is still stored". -/
theorem c7_placeholder_not_stored_counterexample :
    (process_binary_file ⟨.ok "", .ok "", .ok "", .ok "", ""⟩
      "notes.txt" "text/plain").text =
      "File processed but no text content extracted from notes.txt" ∧
    (process_binary_file ⟨.ok "", .ok "", .ok "", .ok "", ""⟩
      "notes.txt" "text/plain").success = false ∧
    webhookFullRun [] [(⟨.ok "", .ok "", .ok "", .ok "", ""⟩,
      "notes.txt", "text/plain")] "" "" "email" "" "english" none false
      0 "t" "u" = ([], false) := by
  exact ⟨by decide, by decide, by decide⟩

/-- **C7 (amended)** — for every input of bytes, filename and mime
type, content extraction never raises: it always returns a result with
a non-empty `text`, and on any handler failure or empty extraction the
text is a descriptive placeholder with the failure recorded.  However,
the intake webhook appends an extraction result to the content it
scores and stores only when `success` is true and the text non-empty,
so a failed extraction's placeholder is never classified; and when
every attachment's extraction failed and no body/subject supplies
content, the webhook returns a 400 error and no document is stored
(the table is unchanged). -/
theorem c7_extraction_never_fails_amended (h : BinHandlers)
    (filename mime : String) (db : DocTable)
    (atts : List (BinHandlers × String × String))
    (source message_id language : String) (rag : Option AIJson)
    (dedupRaises : Bool) (ts : Nat) (tsStr suffix : String) :
    (process_binary_file h filename mime).text ≠ "" ∧
    ((process_binary_file h filename mime).success = false →
      (∃ e, (process_binary_file h filename mime).error = some e ∧
        (process_binary_file h filename mime).text =
          "Error processing " ++ filename ++ ": " ++ e) ∨
      ((process_binary_file h filename mime).error = none ∧
        (process_binary_file h filename mime).text =
          "File processed but no text content extracted from " ++ filename)) ∧
    ((∀ a ∈ atts, (process_binary_file a.1 a.2.1 a.2.2).success = false) →
      webhookFullRun db atts "" "" source message_id language rag
        dedupRaises ts tsStr suffix = (db, false)) := by
  obtain ⟨h1, h2⟩ := process_binary_file_contract h filename mime
  refine ⟨h1, h2, ?_⟩
  intro hall
  have hassemble : webhookAssembleContent atts "" "" = none := by
    unfold webhookAssembleContent
    dsimp only
    rw [foldl_attachAppend_of_failed atts "" hall]
    rfl
  unfold webhookFullRun
  rw [hassemble]

/-- Witness for C7 (amended): a raising PDF handler still yields the
error placeholder, and a webhook run whose only potential content is a
failed extraction leaves the table unchanged and stores nothing. -/
theorem c7_extraction_never_fails_amended_witness :
    (process_binary_file ⟨.raise "boom", .ok "", .ok "", .ok "", ""⟩
      "a.pdf" "application/pdf").text ≠ "" ∧
    ((∃ e, (process_binary_file ⟨.raise "boom", .ok "", .ok "", .ok "", ""⟩
        "a.pdf" "application/pdf").error = some e ∧
      (process_binary_file ⟨.raise "boom", .ok "", .ok "", .ok "", ""⟩
        "a.pdf" "application/pdf").text =
          "Error processing " ++ "a.pdf" ++ ": " ++ e) ∨
     ((process_binary_file ⟨.raise "boom", .ok "", .ok "", .ok "", ""⟩
        "a.pdf" "application/pdf").error = none ∧
      (process_binary_file ⟨.raise "boom", .ok "", .ok "", .ok "", ""⟩
        "a.pdf" "application/pdf").text =
          "File processed but no text content extracted from " ++ "a.pdf")) ∧
    webhookFullRun [] [(⟨.raise "cannot parse", .ok "", .ok "", .ok "", ""⟩,
      "report.pdf", "application/pdf")] "" "" "email" "" "english" none
      false 0 "t" "u" = ([], false) := by
  have h := c7_extraction_never_fails_amended
    ⟨.raise "boom", .ok "", .ok "", .ok "", ""⟩ "a.pdf" "application/pdf"
    [] [(⟨.raise "cannot parse", .ok "", .ok "", .ok "", ""⟩,
      "report.pdf", "application/pdf")] "email" "" "english" none false
    0 "t" "u"
  exact ⟨h.1, h.2.1 (by decide), h.2.2 (by decide)⟩

/-- **C10** — deduplication fails open: when the store lookup raises,
`check_document_exists` reports `is_duplicate = False` while still
returning the computed content hash, and the webhook's own duplicate
check leaves `duplicate_doc = None`, so the intake inserts a fresh row
even if the table already holds identical content. -/
theorem c10_dedup_fails_open (filename content e : String) (db : DocTable)
    (inp : WebhookInput) (routing : RoutingResult) (ts : Nat)
    (tsStr suffix : String) :
    (check_document_exists filename content (.raise e)).is_duplicate = false ∧
    (check_document_exists filename content (.raise e)).content_hash =
      calculate_content_hash content ∧
    (webhookDedupStore db inp routing true ts tsStr suffix).is_update = false ∧
    (webhookDedupStore db inp routing true ts tsStr suffix).db =
      db ++ [newDoc inp routing ts tsStr suffix
        (webhookContentHash inp.content_to_analyze)] :=
  ⟨rfl, rfl, rfl, rfl⟩

/-- **C6 counterexample** — with the RAG tier configured, the stored
priority is taken from the AI result: the text "Urgent track repair
needed" contains the urgent-tier keyword "urgent", yet when the AI
returns priority "normal" the webhook stores "normal" — the keyword
scan does not run in this tier. -/
theorem c6_priority_counterexample :
    determine_priority (pyLower "Urgent track repair needed") = "urgent" ∧
    (webhookRouting
      (some { department := some "Engineering", confidence_score := some 80,
              priority := some "normal", reasoning := some "ai",
              document_type := none, primary_keywords := [] })
      "Urgent track repair needed").priority = "normal" ∧
    (webhookRouting
      (some { department := some "Engineering", confidence_score := some 80,
              priority := some "normal", reasoning := some "ai",
              document_type := none, primary_keywords := [] })
      "Urgent track repair needed").assigned_department = "Engineering" := by
  exact ⟨by decide, rfl, rfl⟩

/-- **C6 (amended)** — the urgency keyword scan (urgent > high > normal,
first match wins) determines the priority exactly when the local
keyword tier routes the document (RAG unavailable); when the RAG tier
supplies the department it also supplies the priority
(`rag_result.get("priority", "normal")`), so an urgent-keyword text can
be stored with a non-urgent priority. -/
theorem c6_priority_amended (content : String) (r : AIJson) :
    (route_document content).priority = determine_priority (pyLower content) ∧
    (webhookRouting none content).priority = determine_priority (pyLower content) ∧
    (webhookRouting (some r) content).priority = r.priority.getD "normal" := by
  have hroute : (route_document content).priority =
      determine_priority (pyLower content) := by
    unfold route_document
    dsimp only
    split <;> rfl
  exact ⟨hroute, hroute, rfl⟩

/-- **C2 counterexample** — the fingerprint the intake webhook
deduplicates on (app.py:1021) is MD5, not SHA-256: on the text
"urgent" it equals the MD5 digest and differs from
`calculate_content_hash` (SHA-256). -/
theorem c2_fingerprint_counterexample :
    webhookContentHash "urgent" = "8ff271ce9de4cf5ecd3c917d2515342f" ∧
    calculate_content_hash "urgent" =
      "f9d37c23fcc0f03c15a86aba71dce01dd0baa7a1568180e60c2347a5863151bc" ∧
    webhookContentHash "urgent" ≠ calculate_content_hash "urgent" := by
  exact ⟨by decide, by decide, by decide⟩

/-- **C2 (amended)** — the intake webhook's dedup fingerprint is the
MD5 hex digest of the extracted text (`calculate_content_hash`, used
when storing documents, is SHA-256); it is a pure function of the text,
and the duplicate lookup treats a document as a content-duplicate iff
some stored row's fingerprint is string-identical to the computed one —
exact equality, no fuzzy matching. -/
theorem c2_fingerprint_amended (T src : String) (db : DocTable) :
    webhookContentHash T = webhookContentHash T ∧
    (∀ d, findDuplicate db (webhookContentHash T) "" src = some d →
      d ∈ db ∧ d.content_hash = webhookContentHash T) ∧
    ((findDuplicate db (webhookContentHash T) "" src).isSome ↔
      ∃ d ∈ db, d.content_hash = webhookContentHash T) := by
  have heq : findDuplicate db (webhookContentHash T) "" src =
      (db.filter fun d => d.content_hash = webhookContentHash T).head? := by
    unfold findDuplicate
    cases (db.filter fun d => d.content_hash = webhookContentHash T).head? <;>
      simp
  refine ⟨rfl, ?_, ?_⟩
  · intro d hd
    rw [heq] at hd
    have hcons := List.eq_cons_of_mem_head? (show d ∈ _ from hd)
    have hmemf : d ∈ db.filter fun x => x.content_hash = webhookContentHash T := by
      rw [hcons]; exact List.mem_cons_self _ _
    have hfd := List.mem_filter.mp hmemf
    exact ⟨hfd.1, by simpa using hfd.2⟩
  · rw [heq]
    constructor
    · intro hs
      obtain ⟨d, hd⟩ := Option.isSome_iff_exists.mp hs
      have hcons := List.eq_cons_of_mem_head? (show d ∈ _ from hd)
      have hmemf : d ∈ db.filter fun x => x.content_hash = webhookContentHash T := by
        rw [hcons]; exact List.mem_cons_self _ _
      have hfd := List.mem_filter.mp hmemf
      exact ⟨d, hfd.1, by simpa using hfd.2⟩
    · rintro ⟨d, hdb, hh⟩
      have hmemf : d ∈ db.filter fun x => x.content_hash = webhookContentHash T :=
        List.mem_filter.mpr ⟨hdb, by simpa using hh⟩
      obtain ⟨x, xs, hcons⟩ := List.exists_cons_of_ne_nil (List.ne_nil_of_mem hmemf)
      rw [hcons]
      rfl

/-- Witness for C2 (amended): the duplicate lookup on a one-row table
with a matching fingerprint returns that row. -/
theorem c2_fingerprint_amended_witness :
    c2SampleDoc ∈ [c2SampleDoc] ∧
    c2SampleDoc.content_hash = webhookContentHash "x" := by
  have h := c2_fingerprint_amended "x" "email" [c2SampleDoc]
  exact h.2.1 c2SampleDoc rfl

/-! ## Batch-loop machinery -/

/-- Rows with other ids are untouched by one loop iteration. -/
theorem processOne_db_of_ne (classify : StoredDoc → ClassifyOutcome)
    (ts : Nat) (acc : DocTable × Nat × Nat) (doc : StoredDoc) {j : String}
    (hne : j ≠ doc.id) :
    dbFind (processOne classify ts acc doc).1 j = dbFind acc.1 j := by
  rcases acc with ⟨db, pc, fc⟩
  unfold processOne
  dsimp only
  split
  · rfl
  · cases classify doc with
    | ok j' =>
        dsimp only
        rw [dbFind_dbUpdate_ne
            (show ∀ d, (applyClassified j' ts d).id = d.id from fun d => rfl) hne,
          dbFind_dbUpdate_ne
            (show ∀ d, (markProcessing ts d).id = d.id from fun d => rfl) hne]
    | raise e =>
        dsimp only
        rw [dbFind_dbUpdate_ne
            (show ∀ d, (markFailed e ts d).id = d.id from fun d => rfl) hne,
          dbFind_dbUpdate_ne
            (show ∀ d, (markProcessing ts d).id = d.id from fun d => rfl) hne]

/-- The row of the processed document after one loop iteration. -/
theorem processOne_db_self (classify : StoredDoc → ClassifyOutcome)
    (ts : Nat) (db : DocTable) (pc fc : Nat) (doc : StoredDoc)
    (hfind : dbFind db doc.id = some doc) :
    dbFind (processOne classify ts (db, pc, fc) doc).1 doc.id =
      (if doc.content = "" then some doc
       else match classify doc with
        | .ok j => some (applyClassified j ts (markProcessing ts doc))
        | .raise e => some (markFailed e ts (markProcessing ts doc))) := by
  unfold processOne
  dsimp only
  split
  · exact hfind
  · cases classify doc with
    | ok j =>
        dsimp only
        rw [dbFind_dbUpdate_self
            (show ∀ d, (applyClassified j ts d).id = d.id from fun d => rfl),
          dbFind_dbUpdate_self
            (show ∀ d, (markProcessing ts d).id = d.id from fun d => rfl), hfind]
        rfl
    | raise e =>
        dsimp only
        rw [dbFind_dbUpdate_self
            (show ∀ d, (markFailed e ts d).id = d.id from fun d => rfl),
          dbFind_dbUpdate_self
            (show ∀ d, (markProcessing ts d).id = d.id from fun d => rfl), hfind]
        rfl

/-- Counter bookkeeping of one loop iteration. -/
theorem processOne_counts (classify : StoredDoc → ClassifyOutcome)
    (ts : Nat) (db : DocTable) (pc fc : Nat) (doc : StoredDoc) :
    (processOne classify ts (db, pc, fc) doc).2.1 =
      pc + (if doc.content ≠ "" ∧ (classify doc).isOk then 1 else 0) ∧
    (processOne classify ts (db, pc, fc) doc).2.2 =
      fc + (if doc.content ≠ "" ∧ ¬(classify doc).isOk then 1 else 0) := by
  unfold processOne
  dsimp only
  split
  case isTrue hc => simp [hc]
  case isFalse hc =>
    cases hcl : classify doc with
    | ok j => simp [hc, ClassifyOutcome.isOk, hcl]
    | raise e => simp [hc, ClassifyOutcome.isOk, hcl]

/-- Full characterisation of the batch fold: rows outside the batch are
untouched, each batch row ends in the state its own classification
outcome dictates, and the two counters count successes and failures of
non-empty batch documents. -/
theorem drainFold_spec (classify : StoredDoc → ClassifyOutcome) (ts : Nat) :
    ∀ (batch : List StoredDoc) (db : DocTable) (pc fc : Nat),
    (∀ d ∈ batch, dbFind db d.id = some d) →
    (batch.map (·.id)).Nodup →
    (∀ j, (∀ d ∈ batch, j ≠ d.id) →
      dbFind (batch.foldl (processOne classify ts) (db, pc, fc)).1 j =
        dbFind db j) ∧
    (∀ d ∈ batch,
      dbFind (batch.foldl (processOne classify ts) (db, pc, fc)).1 d.id =
        (if d.content = "" then some d
         else match classify d with
          | .ok j => some (applyClassified j ts (markProcessing ts d))
          | .raise e => some (markFailed e ts (markProcessing ts d)))) ∧
    (batch.foldl (processOne classify ts) (db, pc, fc)).2.1 =
      pc + (batch.filter fun d => decide (d.content ≠ "") && (classify d).isOk).length ∧
    (batch.foldl (processOne classify ts) (db, pc, fc)).2.2 =
      fc + (batch.filter fun d => decide (d.content ≠ "") && !(classify d).isOk).length := by
  intro batch
  induction batch with
  | nil => intro db pc fc _ _; exact ⟨fun j _ => rfl, fun d hd => absurd hd (by simp), by simp, by simp⟩
  | cons b rest ih =>
      intro db pc fc hfind hnd
      have hbid : b.id ∉ rest.map (·.id) := (List.nodup_cons.mp hnd).1
      have hnd' : (rest.map (·.id)).Nodup := (List.nodup_cons.mp hnd).2
      have hne_rest : ∀ d ∈ rest, d.id ≠ b.id := by
        intro d hd he
        exact hbid (he ▸ List.mem_map_of_mem _ hd)
      have hfind1 : ∀ d ∈ rest,
          dbFind (processOne classify ts (db, pc, fc) b).1 d.id = some d := by
        intro d hd
        rw [processOne_db_of_ne _ _ _ _ (hne_rest d hd)]
        exact hfind d (List.mem_cons_of_mem _ hd)
      have heta : ((processOne classify ts (db, pc, fc) b).1,
          (processOne classify ts (db, pc, fc) b).2.1,
          (processOne classify ts (db, pc, fc) b).2.2) =
          processOne classify ts (db, pc, fc) b := rfl
      have hih := ih (processOne classify ts (db, pc, fc) b).1
        (processOne classify ts (db, pc, fc) b).2.1
        (processOne classify ts (db, pc, fc) b).2.2 hfind1 hnd'
      rw [heta] at hih
      rw [List.foldl_cons]
      obtain ⟨hcnt1, hcnt2⟩ := processOne_counts classify ts db pc fc b
      refine ⟨?_, ?_, ?_, ?_⟩
      · intro j hj
        rw [hih.1 j (fun d hd => hj d (List.mem_cons_of_mem _ hd)),
          processOne_db_of_ne _ _ _ _ (hj b (List.mem_cons_self _ _))]
      · intro d hd
        rcases List.mem_cons.mp hd with rfl | hd'
        · rw [hih.1 d.id (fun d' hd' => (hne_rest d' hd').symm),
            processOne_db_self _ _ _ _ _ _ (hfind d (List.mem_cons_self _ _))]
        · exact hih.2.1 d hd'
      · rw [hih.2.2.1, hcnt1, List.filter_cons]
        by_cases hc : b.content = "" <;> by_cases hok : (classify b).isOk <;>
          simp [hc, hok] <;> omega
      · rw [hih.2.2.2, hcnt2, List.filter_cons]
        by_cases hc : b.content = "" <;> by_cases hok : (classify b).isOk <;>
          simp [hc, hok] <;> omega


theorem selectPending_mem {db : DocTable} {d : StoredDoc}
    (hd : d ∈ selectPending db) : d ∈ db ∧ d.status = "pending" := by
  have h1 : d ∈ List.insertionSort (fun a b => a.created_at ≤ b.created_at)
      (db.filter fun x => x.status = "pending") := List.mem_of_mem_take hd
  have h2 : d ∈ db.filter fun x => x.status = "pending" :=
    (List.perm_insertionSort _ _).mem_iff.mp h1
  have h3 := List.mem_filter.mp h2
  exact ⟨h3.1, by simpa using h3.2⟩

theorem selectPending_nodup {db : DocTable}
    (hnd : (db.map (·.id)).Nodup) :
    ((selectPending db).map (·.id)).Nodup := by
  have h1 : ((db.filter fun x => x.status = "pending").map (·.id)).Nodup :=
    List.Nodup.sublist ((List.filter_sublist db).map _) hnd
  have h2 : ((List.insertionSort (fun a b => a.created_at ≤ b.created_at)
      (db.filter fun x => x.status = "pending")).map (·.id)).Nodup :=
    (((List.perm_insertionSort _ _).map _).nodup_iff).mpr h1
  rw [selectPending, List.map_take]
  exact List.Nodup.sublist (List.take_sublist _ _) h2

theorem selectPending_sorted (db : DocTable) :
    List.Sorted (fun a b : StoredDoc => a.created_at ≤ b.created_at)
      (selectPending db) := by
  haveI ht : IsTotal StoredDoc (fun a b => a.created_at ≤ b.created_at) :=
    ⟨fun a b => Nat.le_total _ _⟩
  haveI htr : IsTrans StoredDoc (fun a b => a.created_at ≤ b.created_at) :=
    ⟨fun a b c => Nat.le_trans⟩
  exact List.Pairwise.sublist (List.take_sublist _ _)
    (List.sorted_insertionSort _ _)

/-- **C5** — one drain of the pending queue selects up to 10 pending
rows oldest first and processes each in isolation: a document whose
classification raises is marked `failed` with the error persisted in
its metadata and counted in `failed_count`, a document whose
classification succeeds is driven to `processed`, and the two counters
count exactly the non-empty batch documents of each kind — one failure
never aborts the batch. -/
theorem c5_drain_batch_isolation (classify : StoredDoc → ClassifyOutcome)
    (ts : Nat) (db : DocTable) (hnd : (db.map (·.id)).Nodup) :
    (selectPending db).length ≤ 10 ∧
    List.Sorted (fun a b : StoredDoc => a.created_at ≤ b.created_at)
      (selectPending db) ∧
    (∀ d ∈ selectPending db, d ∈ db ∧ d.status = "pending") ∧
    (∀ d ∈ selectPending db, d.content ≠ "" → ∀ e, classify d = .raise e →
      (dbFind (process_pending_documents classify ts db).db d.id).map
          (·.status) = some "failed" ∧
      (dbFind (process_pending_documents classify ts db).db d.id).map
          (·.errorMeta) = some (some e)) ∧
    (∀ d ∈ selectPending db, d.content ≠ "" → ∀ j, classify d = .ok j →
      (dbFind (process_pending_documents classify ts db).db d.id).map
          (·.status) = some "processed" ∧
      (dbFind (process_pending_documents classify ts db).db d.id).map
          (·.assigned_department) = some (j.department.getD "Administration")) ∧
    (process_pending_documents classify ts db).processed_count =
      ((selectPending db).filter fun d =>
        decide (d.content ≠ "") && (classify d).isOk).length ∧
    (process_pending_documents classify ts db).failed_count =
      ((selectPending db).filter fun d =>
        decide (d.content ≠ "") && !(classify d).isOk).length := by
  have hfind : ∀ d ∈ selectPending db, dbFind db d.id = some d :=
    fun d hd => dbFind_of_nodup hnd (selectPending_mem hd).1
  have hspec := drainFold_spec classify ts (selectPending db) db 0 0 hfind
    (selectPending_nodup hnd)
  have hdb : (process_pending_documents classify ts db).db =
      ((selectPending db).foldl (processOne classify ts) (db, 0, 0)).1 := rfl
  have hpc : (process_pending_documents classify ts db).processed_count =
      ((selectPending db).foldl (processOne classify ts) (db, 0, 0)).2.1 := rfl
  have hfc : (process_pending_documents classify ts db).failed_count =
      ((selectPending db).foldl (processOne classify ts) (db, 0, 0)).2.2 := rfl
  refine ⟨by simpa [selectPending] using List.length_take_le 10 _,
    selectPending_sorted db, fun d hd => selectPending_mem hd, ?_, ?_, ?_, ?_⟩
  · intro d hd hc e hcl
    have h := hspec.2.1 d hd
    rw [if_neg hc, hcl] at h
    rw [hdb, h]
    exact ⟨rfl, rfl⟩
  · intro d hd hc j hcl
    have h := hspec.2.1 d hd
    rw [if_neg hc, hcl] at h
    rw [hdb, h]
    exact ⟨rfl, rfl⟩
  · rw [hpc, hspec.2.2.1, Nat.zero_add]
  · rw [hfc, hspec.2.2.2, Nat.zero_add]

/-- Witness for C5: in a five-document batch where #2 raises, the four
others are driven to `processed`, #2 is `failed` with the error stored,
and the counters read 4/1. -/
theorem c5_drain_batch_isolation_witness :
    (process_pending_documents c5Classify 7 c5Db).processed_count = 4 ∧
    (process_pending_documents c5Classify 7 c5Db).failed_count = 1 ∧
    (dbFind (process_pending_documents c5Classify 7 c5Db).db "d2").map
      (·.status) = some "failed" ∧
    (dbFind (process_pending_documents c5Classify 7 c5Db).db "d2").map
      (·.errorMeta) = some (some "boom") ∧
    (dbFind (process_pending_documents c5Classify 7 c5Db).db "d1").map
      (·.status) = some "processed" ∧
    (dbFind (process_pending_documents c5Classify 7 c5Db).db "d5").map
      (·.status) = some "processed" := by
  have h := c5_drain_batch_isolation c5Classify 7 c5Db (by decide)
  refine ⟨?_, ?_, ?_, ?_, ?_, ?_⟩
  · rw [h.2.2.2.2.2.1]
    decide
  · rw [h.2.2.2.2.2.2]
    decide
  · exact (h.2.2.2.1 (c5Doc 2 "d2") (by decide) (by decide) "boom" (by decide)).1
  · exact (h.2.2.2.1 (c5Doc 2 "d2") (by decide) (by decide) "boom" (by decide)).2
  · exact (h.2.2.2.2.1 (c5Doc 1 "d1") (by decide) (by decide) _ rfl).1
  · exact (h.2.2.2.2.1 (c5Doc 5 "d5") (by decide) (by decide) _ rfl).1

/-- **C4 counterexample** — a duplicate submission merged into a
`failed` record leaves the record `failed`: the merge path of
`process_document_webhook` never sets the status column, so the
claimed `failed → pending` move on duplicate intake does not happen. -/
theorem c4_failed_not_reset_counterexample :
    (process_document_webhook [c4FailedDoc] c4Input (some c4Rag)
      false 9 "ts" "uu").is_update = true ∧
    (process_document_webhook [c4FailedDoc] c4Input (some c4Rag)
      false 9 "ts" "uu").db.map (·.status) = ["failed"] ∧
    "failed" ≠ "pending" := by
  exact ⟨by decide, by decide, by decide⟩

/-- **C4 (amended)** — the intake merge leaves every row's status at
its current value (including `failed`), a fresh intake row is created
as `pending`, and one queue drain moves a row only forward: it is
either unchanged or goes from `pending` to `processed`/`failed`. -/
theorem c4_status_transitions_amended (db : DocTable) (inp : WebhookInput)
    (routing : RoutingResult) (dedupRaises : Bool) (ts : Nat)
    (tsStr suffix : String) (classify : StoredDoc → ClassifyOutcome)
    (hnd : (db.map (·.id)).Nodup) :
    ((webhookDedupStore db inp routing dedupRaises ts tsStr suffix).is_update = true →
      (webhookDedupStore db inp routing dedupRaises ts tsStr suffix).db.map
        (·.status) = db.map (·.status)) ∧
    ((webhookDedupStore db inp routing dedupRaises ts tsStr suffix).is_update = false →
      (webhookDedupStore db inp routing dedupRaises ts tsStr suffix).db.map
        (·.status) = db.map (·.status) ++ ["pending"]) ∧
    (∀ i r r', dbFind db i = some r →
      dbFind (process_pending_documents classify ts db).db i = some r' →
      r' = r ∨ (r.status = "pending" ∧
        (r'.status = "processed" ∨ r'.status = "failed"))) := by
  refine ⟨?_, ?_, ?_⟩
  · intro hupd
    unfold webhookDedupStore at hupd ⊢
    dsimp only at hupd ⊢
    cases hdup : (if dedupRaises then none
      else findDuplicate db (webhookContentHash inp.content_to_analyze)
        inp.message_id inp.source) with
    | none => rw [hdup] at hupd; simp at hupd
    | some dup =>
        dsimp only
        unfold dbUpdate
        rw [List.map_map]
        apply List.map_congr_left
        intro d _
        by_cases hid : d.id = dup.id <;> simp [hid, mergeUpdate]
  · intro hupd
    unfold webhookDedupStore at hupd ⊢
    dsimp only at hupd ⊢
    cases hdup : (if dedupRaises then none
      else findDuplicate db (webhookContentHash inp.content_to_analyze)
        inp.message_id inp.source) with
    | some dup => rw [hdup] at hupd; simp at hupd
    | none =>
        dsimp only
        rw [List.map_append]
        rfl
  · intro i r r' hr hr'
    have hdbr : (process_pending_documents classify ts db).db =
        ((selectPending db).foldl (processOne classify ts) (db, 0, 0)).1 := rfl
    have hfind : ∀ d ∈ selectPending db, dbFind db d.id = some d :=
      fun d hd => dbFind_of_nodup hnd (selectPending_mem hd).1
    have hspec := drainFold_spec classify ts (selectPending db) db 0 0 hfind
      (selectPending_nodup hnd)
    by_cases hsel : ∃ d ∈ selectPending db, d.id = i
    · obtain ⟨d, hd, hid⟩ := hsel
      subst hid
      have hrd : r = d := by
        rw [hfind d hd] at hr
        exact (Option.some_inj.mp hr).symm
      have h := hspec.2.1 d hd
      rw [hdbr, h] at hr'
      by_cases hc : d.content = ""
      · rw [if_pos hc] at hr'
        exact Or.inl (by rw [hrd]; exact (Option.some_inj.mp hr').symm)
      · rw [if_neg hc] at hr'
        cases hcl : classify d with
        | ok j =>
            rw [hcl] at hr'
            refine Or.inr ⟨by rw [hrd]; exact (selectPending_mem hd).2, Or.inl ?_⟩
            rw [← Option.some_inj.mp hr']
            rfl
        | raise e =>
            rw [hcl] at hr'
            refine Or.inr ⟨by rw [hrd]; exact (selectPending_mem hd).2, Or.inr ?_⟩
            rw [← Option.some_inj.mp hr']
            rfl
    · have hne : ∀ d ∈ selectPending db, i ≠ d.id := by
        intro d hd he
        exact hsel ⟨d, hd, he.symm⟩
      have h := hspec.1 i hne
      rw [hdbr, h, hr] at hr'
      exact Or.inl (Option.some_inj.mp hr').symm

/-- Witness for C4 (amended): a merge into a one-row table leaves the
status list unchanged, and a drain of that table (whose row is not
pending) changes nothing. -/
theorem c4_status_transitions_amended_witness :
    (webhookDedupStore [c4FailedDoc] c4Input c4WitnessRouting false 9 "ts" "uu").db.map
      (·.status) = [c4FailedDoc].map (·.status) ∧
    ("failed" = "failed" ∨ ("failed" = "pending" ∧
      ("failed" = "processed" ∨ "failed" = "failed"))) := by
  have h := c4_status_transitions_amended [c4FailedDoc] c4Input
    c4WitnessRouting false 9 "ts" "uu" c5Classify (by decide)
  refine ⟨h.1 (by decide), ?_⟩
  have h2 := h.2.2 "doc1" c4FailedDoc c4FailedDoc (by decide) (by decide)
  rcases h2 with h2 | ⟨h2, -⟩
  · exact Or.inl rfl
  · exact absurd h2 (by decide)

/-! ## Webhook helper lemmas for C1 -/

theorem webhookDedupStore_insert {db : DocTable} {inp : WebhookInput}
    {routing : RoutingResult} {ts : Nat} {tsStr suffix : String}
    (hdup : findDuplicate db (webhookContentHash inp.content_to_analyze)
      inp.message_id inp.source = none) :
    webhookDedupStore db inp routing false ts tsStr suffix =
      { db := db ++ [newDoc inp routing ts tsStr suffix
          (webhookContentHash inp.content_to_analyze)],
        stored_id := (newDoc inp routing ts tsStr suffix
          (webhookContentHash inp.content_to_analyze)).id,
        is_update := false } := by
  unfold webhookDedupStore
  simp [hdup]

theorem webhookDedupStore_update {db : DocTable} {inp : WebhookInput}
    {routing : RoutingResult} {ts : Nat} {tsStr suffix : String}
    {dup : StoredDoc}
    (hdup : findDuplicate db (webhookContentHash inp.content_to_analyze)
      inp.message_id inp.source = some dup) :
    webhookDedupStore db inp routing false ts tsStr suffix =
      { db := dbUpdate db dup.id (mergeUpdate routing ts
          (webhookContentHash inp.content_to_analyze)),
        stored_id := dup.id,
        is_update := true } := by
  unfold webhookDedupStore
  simp [hdup]

theorem dbFind_append_of_none {db l : DocTable} {i : String}
    (h : ∀ d ∈ db, d.id ≠ i) : dbFind (db ++ l) i = dbFind l i := by
  induction db with
  | nil => rfl
  | cons x xs ih =>
      rw [List.cons_append, dbFind_cons, if_neg (h x (List.mem_cons_self _ _)),
        ih fun d hd => h d (List.mem_cons_of_mem _ hd)]

theorem dbUpdate_eq_of_notin {db : DocTable} {i : String}
    {patch : StoredDoc → StoredDoc} (h : ∀ d ∈ db, d.id ≠ i) :
    dbUpdate db i patch = db := by
  unfold dbUpdate
  rw [List.map_congr_left fun d hd => if_neg (h d hd)]
  exact List.map_id db

theorem dbUpdate_append (l1 l2 : DocTable) (i : String)
    (patch : StoredDoc → StoredDoc) :
    dbUpdate (l1 ++ l2) i patch = dbUpdate l1 i patch ++ dbUpdate l2 i patch :=
  List.map_append _ _ _

/-- **C1 (amended)** — submitting identical content twice through the
`/webhook/document` intake yields exactly one stored row: on a table
with no matching fingerprint or origin identity, the first run inserts
a fresh record with `update_count = 0`; the second run finds that
record by content fingerprint and updates it in place — `is_update` is
reported true, `update_count` becomes 1, no second row appears.  The
`/webhook/store-document` channel does not deduplicate (see the
counterexample), so the claim's "through any intake channel" fails. -/
theorem c1_webhook_dedupe_amended (db : DocTable) (inp1 inp2 : WebhookInput)
    (r1 r2 : RoutingResult) (ts1 ts2 : Nat) (tsStr1 tsStr2 suf1 suf2 : String)
    (hsame : inp2.content_to_analyze = inp1.content_to_analyze)
    (hnohash : ∀ d ∈ db,
      d.content_hash ≠ webhookContentHash inp1.content_to_analyze)
    (hmsg : inp1.message_id = "" ∨
      ∀ d ∈ db, ¬(d.message_id = inp1.message_id ∧ d.source = inp1.source))
    (hfresh : ∀ d ∈ db, d.id ≠ newDocId tsStr1 inp1.message_id suf1) :
    (webhookDedupStore db inp1 r1 false ts1 tsStr1 suf1).is_update = false ∧
    (webhookDedupStore db inp1 r1 false ts1 tsStr1 suf1).db.length =
      db.length + 1 ∧
    (dbFind (webhookDedupStore db inp1 r1 false ts1 tsStr1 suf1).db
      (webhookDedupStore db inp1 r1 false ts1 tsStr1 suf1).stored_id).map
        (·.update_count) = some 0 ∧
    (webhookDedupStore (webhookDedupStore db inp1 r1 false ts1 tsStr1 suf1).db
      inp2 r2 false ts2 tsStr2 suf2).is_update = true ∧
    (webhookDedupStore (webhookDedupStore db inp1 r1 false ts1 tsStr1 suf1).db
      inp2 r2 false ts2 tsStr2 suf2).db.length = db.length + 1 ∧
    ((webhookDedupStore (webhookDedupStore db inp1 r1 false ts1 tsStr1 suf1).db
      inp2 r2 false ts2 tsStr2 suf2).db.filter fun d =>
        d.content_hash = webhookContentHash inp1.content_to_analyze).length = 1 ∧
    (dbFind (webhookDedupStore (webhookDedupStore db inp1 r1 false ts1 tsStr1
        suf1).db inp2 r2 false ts2 tsStr2 suf2).db
      (webhookDedupStore db inp1 r1 false ts1 tsStr1 suf1).stored_id).map
        (·.update_count) = some 1 := by
  have hfil1 : (db.filter fun d =>
      d.content_hash = webhookContentHash inp1.content_to_analyze) = [] :=
    List.filter_eq_nil_iff.mpr fun d hd => by simpa using hnohash d hd
  have hdup1 : findDuplicate db (webhookContentHash inp1.content_to_analyze)
      inp1.message_id inp1.source = none := by
    unfold findDuplicate
    rw [hfil1]
    dsimp only [List.head?]
    rcases hmsg with hm | hm
    · rw [hm]
      simp
    · have hfilm : (db.filter fun d =>
          d.message_id = inp1.message_id ∧ d.source = inp1.source) = [] :=
        List.filter_eq_nil_iff.mpr fun d hd => by simpa using hm d hd
      rw [hfilm]
      simp
  have hout1 := @webhookDedupStore_insert db inp1 r1 ts1 tsStr1 suf1 hdup1
  have hh2 : webhookContentHash inp2.content_to_analyze =
      webhookContentHash inp1.content_to_analyze := by rw [hsame]
  have hfil2 : ((db ++ [newDoc inp1 r1 ts1 tsStr1 suf1
      (webhookContentHash inp1.content_to_analyze)]).filter fun d =>
      d.content_hash = webhookContentHash inp1.content_to_analyze) =
      [newDoc inp1 r1 ts1 tsStr1 suf1
        (webhookContentHash inp1.content_to_analyze)] := by
    rw [List.filter_append, hfil1]
    simp [newDoc]
  have hdup2 : findDuplicate (db ++ [newDoc inp1 r1 ts1 tsStr1 suf1
      (webhookContentHash inp1.content_to_analyze)])
      (webhookContentHash inp2.content_to_analyze) inp2.message_id
      inp2.source = some (newDoc inp1 r1 ts1 tsStr1 suf1
        (webhookContentHash inp1.content_to_analyze)) := by
    rw [hh2]
    unfold findDuplicate
    rw [hfil2]
    rfl
  have hout2 := @webhookDedupStore_update
    (db ++ [newDoc inp1 r1 ts1 tsStr1 suf1
      (webhookContentHash inp1.content_to_analyze)])
    inp2 r2 ts2 tsStr2 suf2
    (newDoc inp1 r1 ts1 tsStr1 suf1
      (webhookContentHash inp1.content_to_analyze)) hdup2
  have hnotin : ∀ d ∈ db, d.id ≠ (newDoc inp1 r1 ts1 tsStr1 suf1
      (webhookContentHash inp1.content_to_analyze)).id := fun d hd =>
    hfresh d hd
  have hdb2 : (webhookDedupStore (webhookDedupStore db inp1 r1 false ts1
      tsStr1 suf1).db inp2 r2 false ts2 tsStr2 suf2).db =
      db ++ [mergeUpdate r2 ts2 (webhookContentHash inp2.content_to_analyze)
        (newDoc inp1 r1 ts1 tsStr1 suf1
          (webhookContentHash inp1.content_to_analyze))] := by
    rw [hout1]
    dsimp only
    rw [hout2]
    dsimp only
    rw [dbUpdate_append, dbUpdate_eq_of_notin hnotin]
    unfold dbUpdate
    simp
  refine ⟨?_, ?_, ?_, ?_, ?_, ?_, ?_⟩
  · rw [hout1]
  · rw [hout1]
    dsimp only
    rw [List.length_append]
    rfl
  · rw [hout1]
    dsimp only
    rw [dbFind_append_of_none hnotin]
    simp [dbFind, newDoc]
  · rw [hout1]
    dsimp only
    rw [hout2]
  · rw [hdb2, List.length_append]
    rfl
  · rw [hdb2, List.filter_append, hfil1]
    simp [mergeUpdate, hh2]
  · rw [hdb2, hout1]
    dsimp only
    rw [dbFind_append_of_none hnotin]
    simp [dbFind, mergeUpdate, newDoc]

/-- **C1 counterexample** — the `/webhook/store-document` intake channel
performs no duplicate check: storing byte-identical content twice
yields two rows with the same content and the same fingerprint. -/
theorem c1_store_channel_counterexample :
    (store_document_webhook (store_document_webhook [] "id1" "f.txt"
      "budget report" "email" "Finance" "normal" 75 0) "id2" "f.txt"
      "budget report" "email" "Finance" "normal" 75 1).length = 2 ∧
    ((store_document_webhook (store_document_webhook [] "id1" "f.txt"
      "budget report" "email" "Finance" "normal" 75 0) "id2" "f.txt"
      "budget report" "email" "Finance" "normal" 75 1).filter fun d =>
        d.content_hash = calculate_content_hash "budget report").length = 2 := by
  exact ⟨by decide, by decide⟩

/-- Witness for C1 (amended): two identical submissions into an empty
table leave exactly one row, updated in place. -/
theorem c1_webhook_dedupe_amended_witness :
    (webhookDedupStore [] c1Input c1Routing false 1 "t1" "u1").is_update = false ∧
    (webhookDedupStore [] c1Input c1Routing false 1 "t1" "u1").db.length = 1 ∧
    (dbFind (webhookDedupStore [] c1Input c1Routing false 1 "t1" "u1").db
      (webhookDedupStore [] c1Input c1Routing false 1 "t1" "u1").stored_id).map
        (·.update_count) = some 0 ∧
    (webhookDedupStore (webhookDedupStore [] c1Input c1Routing false 1 "t1"
      "u1").db c1Input c1Routing false 2 "t2" "u2").is_update = true ∧
    (webhookDedupStore (webhookDedupStore [] c1Input c1Routing false 1 "t1"
      "u1").db c1Input c1Routing false 2 "t2" "u2").db.length = 1 ∧
    ((webhookDedupStore (webhookDedupStore [] c1Input c1Routing false 1 "t1"
      "u1").db c1Input c1Routing false 2 "t2" "u2").db.filter fun d =>
        d.content_hash = webhookContentHash c1Input.content_to_analyze).length = 1 ∧
    (dbFind (webhookDedupStore (webhookDedupStore [] c1Input c1Routing false 1
        "t1" "u1").db c1Input c1Routing false 2 "t2" "u2").db
      (webhookDedupStore [] c1Input c1Routing false 1 "t1" "u1").stored_id).map
        (·.update_count) = some 1 := by
  have h := c1_webhook_dedupe_amended [] c1Input c1Input c1Routing c1Routing
    1 2 "t1" "t2" "u1" "u2" rfl (by simp) (Or.inl rfl) (by simp)
  exact h

end DocX
